import Mathlib

/-!
The program `healthchecker`: a shallow embedding of `main.go`.

The program builds a `Config` from defaults, environment variables and
command-line flags, issues one HTTP GET and compares the status code.

Go strings are byte sequences; they are modelled as `List UInt8`.  `int` and
`time.Duration` are 64-bit signed integers, modelled as `Int` (the parsers
below enforce the 64-bit range exactly where the Go library does), and a
`uint64` accumulator is a `Nat` reduced modulo `2 ^ 64` where it can wrap.

The standard-library functions the program calls (`strconv.Atoi`,
`time.ParseDuration`, `flag.Parse`, `url.Parse`, `(*URL).String`) are
transcribed from the Go library (Go 1.21, the first release with `log/slog`,
which the program imports) so that the program can be evaluated on concrete
inputs.  Effects are explicit: a function returns the events it causes, in
order, next to its result, and a function that may end the process returns a
`Run`.
-/

namespace HealthChecker

/-! ## Go strings -/

/-- A Go string: an immutable sequence of bytes. -/
abbrev GoString := List UInt8

/-- The bytes (UTF-8) of a string literal of the source. -/
def go (s : String) : GoString := s.data.flatMap String.utf8EncodeChar

/-- Go's `strings.HasPrefix`. -/
def hasPrefix : GoString → GoString → Bool
  | _, [] => true
  | [], _ :: _ => false
  | c :: s, p :: ps => c == p && hasPrefix s ps

/-- Go's `strings.Index`: position of the first occurrence of `sep`. -/
def indexOf (sep : GoString) : GoString → Option Nat
  | [] => if sep = [] then some 0 else none
  | c :: s =>
    if hasPrefix (c :: s) sep then some 0
    else (indexOf sep s).map (· + 1)

/-- Go's `strings.LastIndex` for a one-byte separator. -/
def lastIndexByte (b : UInt8) (s : GoString) : Option Nat :=
  (indexOf [b] s.reverse).map (fun i => s.length - 1 - i)

/-- Go's `strings.Contains`. -/
def containsStr (s sep : GoString) : Bool := (indexOf sep s).isSome

/-- Go's `strings.Cut`: the text before and after the first `sep`, and
whether `sep` was found. -/
def cut (s sep : GoString) : GoString × GoString × Bool :=
  match indexOf sep s with
  | some i => (s.take i, s.drop (i + sep.length), true)
  | none => (s, [], false)

deriving instance DecidableEq for Except

/-- The `lower` helper of `strconv`: `c | ('x' - 'X')`. -/
def lower (c : UInt8) : UInt8 := c ||| 0x20

/-- Whether the byte is an ASCII decimal digit. -/
def isDigit (c : UInt8) : Bool := 0x30 ≤ c && c ≤ 0x39

/-! ## `strconv`: `ParseUint`, `ParseInt`, `Atoi` (64-bit `int`) -/

/-- The two sentinel errors `strconv.ErrSyntax` and `strconv.ErrRange`. -/
inductive NumErrKind where
  | ErrSyntax
  | ErrRange
  deriving DecidableEq, Repr

/-- Go's `*strconv.NumError`. -/
structure NumError where
  Func : String
  Num : GoString
  Err : NumErrKind
  deriving DecidableEq, Repr

/-- Go's `strconv.underscoreOK`, the loop over the number proper: `saw` is
`0` at the beginning, `1` after a digit or base prefix, `2` after an
underscore, `3` after anything else. -/
def underscoreLoop (hex : Bool) : Nat → GoString → Bool
  | saw, [] => saw != 2
  | saw, c :: s =>
    if isDigit c || (hex && 0x61 ≤ lower c && lower c ≤ 0x66) then
      underscoreLoop hex 1 s
    else if c = 0x5f then
      if saw != 1 then false else underscoreLoop hex 2 s
    else if saw = 2 then false
    else underscoreLoop hex 3 s

/-- Go's `strconv.underscoreOK`. -/
def underscoreOK (s0 : GoString) : Bool :=
  let s := match s0 with
    | c :: r => if c = 0x2d || c = 0x2b then r else s0
    | [] => s0
  match s with
  | c0 :: c1 :: r =>
    if c0 = 0x30 && (lower c1 = 0x62 || lower c1 = 0x6f || lower c1 = 0x78) then
      underscoreLoop (lower c1 = 0x78) 1 r
    else underscoreLoop false 0 s
  | _ => underscoreLoop false 0 s

/-- The digit loop of `strconv.ParseUint` with `bitSize = 64`: returns the
value and whether an underscore was skipped. -/
def parseUintLoop (base : Nat) (base0 : Bool) :
    GoString → Nat → Bool → Except NumErrKind (Nat × Bool)
  | [], n, us => .ok (n, us)
  | c :: s, n, us =>
    if c = 0x5f && base0 then parseUintLoop base base0 s n true
    else
      let d : Option Nat :=
        if isDigit c then some (c.toNat - 0x30)
        else if 0x61 ≤ lower c && lower c ≤ 0x7a then some ((lower c).toNat - 0x61 + 10)
        else none
      match d with
      | none => .error .ErrSyntax
      | some d =>
        if d ≥ base then .error .ErrSyntax
        else if n ≥ (2 ^ 64 - 1) / base + 1 then .error .ErrRange
        else if n * base + d > 2 ^ 64 - 1 then .error .ErrRange
        else parseUintLoop base base0 s (n * base + d) us

/-- Go's `strconv.ParseUint(s, base, 64)` for `base` 0 or 10, reporting only
the kind of error (the caller fills in `Func` and `Num`). -/
def ParseUint (s0 : GoString) (base : Nat) : Except NumErrKind Nat :=
  if s0 = [] then .error .ErrSyntax
  else
    let base0 := base == 0
    let (b, s) : Nat × GoString :=
      if base0 then
        match s0 with
        | 0x30 :: c1 :: c2 :: r =>
          if lower c1 = 0x62 then (2, c2 :: r)
          else if lower c1 = 0x6f then (8, c2 :: r)
          else if lower c1 = 0x78 then (16, c2 :: r)
          else (8, c1 :: c2 :: r)
        | 0x30 :: r => (8, r)
        | _ => (10, s0)
      else (base, s0)
    match parseUintLoop b base0 s 0 false with
    | .error k => .error k
    | .ok (n, us) =>
      if us && !underscoreOK s0 then .error .ErrSyntax else .ok n

/-- Go's `strconv.ParseInt(s, base, 64)` for `base` 0 or 10. -/
def ParseInt (s0 : GoString) (base : Nat) : Except NumError Int :=
  match s0 with
  | [] => .error ⟨"ParseInt", s0, .ErrSyntax⟩
  | c :: r =>
    let neg := c = 0x2d
    let s := if c = 0x2b || c = 0x2d then r else s0
    match ParseUint s base with
    | .error .ErrSyntax => .error ⟨"ParseInt", s0, .ErrSyntax⟩
    | res =>
      let un : Nat := match res with
        | .ok n => n
        | .error _ => 2 ^ 64 - 1
      if !neg && un ≥ 2 ^ 63 then .error ⟨"ParseInt", s0, .ErrRange⟩
      else if neg && un > 2 ^ 63 then .error ⟨"ParseInt", s0, .ErrRange⟩
      else .ok (if neg then -(un : Int) else (un : Int))

/-- The fast path loop of `strconv.Atoi`: decimal digits only. -/
def atoiFast : GoString → Nat → Option Nat
  | [], n => some n
  | c :: s, n => if isDigit c then atoiFast s (n * 10 + (c.toNat - 0x30)) else none

/-- Go's `strconv.Atoi` on a 64-bit platform. -/
def Atoi (s0 : GoString) : Except NumError Int :=
  if 0 < s0.length ∧ s0.length < 19 then
    match s0 with
    | [] => .error ⟨"Atoi", s0, .ErrSyntax⟩
    | c :: r =>
      let s := if c = 0x2d || c = 0x2b then r else s0
      if s.length < 1 then .error ⟨"Atoi", s0, .ErrSyntax⟩
      else
        match atoiFast s 0 with
        | none => .error ⟨"Atoi", s0, .ErrSyntax⟩
        | some n => .ok (if c = 0x2d then -(n : Int) else (n : Int))
  else
    match ParseInt s0 10 with
    | .error e => .error { e with Func := "Atoi" }
    | .ok i => .ok i

/-! ## `time.ParseDuration` -/

/-- The errors `time.ParseDuration` returns: "time: invalid duration ORIG",
"time: missing unit in duration ORIG" and
"time: unknown unit U in duration ORIG". -/
inductive DurationError where
  | invalid (orig : GoString)
  | missingUnit (orig : GoString)
  | unknownUnit (u orig : GoString)
  deriving DecidableEq, Repr

/-- Go's `time.leadingInt`: the leading decimal digits of `s` as an integer
and the rest of `s`; `none` when the value exceeds `1 <<< 63`. -/
def leadingInt : GoString → Nat → Option (Nat × GoString)
  | [], x => some (x, [])
  | c :: s, x =>
    if !isDigit c then some (x, c :: s)
    else if x > 2 ^ 63 / 10 then none
    else if x * 10 + (c.toNat - 0x30) > 2 ^ 63 then none
    else leadingInt s (x * 10 + (c.toNat - 0x30))

/-- Go's `time.leadingFraction`: the leading digits of `s` as the numerator
`x` of a fraction `x / scale` with `scale = 10 ^ k` (returned as `k`); digits
past the overflow point are consumed and ignored. -/
def leadingFraction : GoString → Nat → Nat → Bool → Nat × Nat × GoString
  | [], x, k, _ => (x, k, [])
  | c :: s, x, k, overflow =>
    if !isDigit c then (x, k, c :: s)
    else if overflow then leadingFraction s x k true
    else if x > (2 ^ 63 - 1) / 10 then leadingFraction s x k true
    else if x * 10 + (c.toNat - 0x30) > 2 ^ 63 then leadingFraction s x k true
    else leadingFraction s (x * 10 + (c.toNat - 0x30)) (k + 1) false

/-- Go's `time.unitMap`: nanoseconds per unit. -/
def unitMap (u : GoString) : Option Nat :=
  if u = go "ns" then some 1
  else if u = go "us" then some 1000
  else if u = go "µs" then some 1000
  else if u = go "μs" then some 1000
  else if u = go "ms" then some 1000000
  else if u = go "s" then some 1000000000
  else if u = go "m" then some 60000000000
  else if u = go "h" then some 3600000000000
  else none

/-- The length of the unit: the bytes up to the next `.` or digit. -/
def unitLen : GoString → Nat
  | [] => 0
  | c :: s => if c = 0x2e || isDigit c then 0 else unitLen s + 1

/-- The step of `time.ParseDuration` that consumes an optional `.` and the digits after
it: the fraction as `f / 10 ^ k`, whether a digit was consumed, and the text left. -/
def fractionPart : GoString → Nat × Nat × Bool × GoString
  | 0x2e :: r =>
    ((leadingFraction r 0 0 false).1, (leadingFraction r 0 0 false).2.1,
      r.length != (leadingFraction r 0 0 false).2.2.length, (leadingFraction r 0 0 false).2.2)
  | s1 => (0, 0, false, s1)

section Duration

/- The one floating-point step of `time.ParseDuration`,
`uint64(float64(f) * (float64(unit) / scale))` with `scale = 10 ^ k`, is a
function `fracNanos f unit k`.  IEEE arithmetic is not modelled: every result
below holds for any such function. -/
variable (fracNanos : Nat → Nat → Nat → Nat)

/-- One iteration of the `for s != ""` loop of `time.ParseDuration` on the text
`c :: s0` with the total `d` so far: the text left and the new total.  The total is a
`uint64`: `d += v` wraps at `2 ^ 64`. -/
def durationStep (orig : GoString) (c : UInt8) (s0 : GoString) (d : Nat) :
    Except DurationError (GoString × Nat) :=
  if !(c = 0x2e || isDigit c) then .error (.invalid orig)
  else
    match leadingInt (c :: s0) 0 with
    | none => .error (.invalid orig)
    | some (v, s1) =>
      match fractionPart s1 with
      | (f, k, post, s2) =>
        if !((c :: s0).length != s1.length) && !post then .error (.invalid orig)
        else if unitLen s2 = 0 then .error (.missingUnit orig)
        else
          match unitMap (s2.take (unitLen s2)) with
          | none => .error (.unknownUnit (s2.take (unitLen s2)) orig)
          | some unit =>
            if v > 2 ^ 63 / unit then .error (.invalid orig)
            else
              let withFrac : Option Nat :=
                if f > 0 then
                  if (v * unit + fracNanos f unit k % 2 ^ 64) % 2 ^ 64 > 2 ^ 63 then none
                  else some ((v * unit + fracNanos f unit k % 2 ^ 64) % 2 ^ 64)
                else some (v * unit)
              match withFrac with
              | none => .error (.invalid orig)
              | some v2 =>
                if (d + v2) % 2 ^ 64 > 2 ^ 63 then .error (.invalid orig)
                else .ok (s2.drop (unitLen s2), (d + v2) % 2 ^ 64)

/-- The `for s != ""` loop of `time.ParseDuration`.  Every iteration consumes at least
one byte, so `fuel` equal to the length of `s` is never exhausted (see
`parseDurationLoop_fuel`). -/
def parseDurationLoop (orig : GoString) : Nat → GoString → Nat → Except DurationError Nat
  | _, [], d => .ok d
  | 0, _ :: _, _ => .error (.invalid orig)
  | fuel + 1, c :: s0, d =>
    match durationStep fracNanos orig c s0 d with
    | .error e => .error e
    | .ok (rest, d1) => parseDurationLoop orig fuel rest d1

/-- Go's `time.ParseDuration`; the result is in nanoseconds. -/
def ParseDuration (orig : GoString) : Except DurationError Int :=
  let (neg, s) : Bool × GoString :=
    match orig with
    | c :: r => if c = 0x2d || c = 0x2b then (c = 0x2d, r) else (false, orig)
    | [] => (false, orig)
  if s = go "0" then .ok 0
  else if s = [] then .error (.invalid orig)
  else
    match parseDurationLoop fracNanos orig s.length s 0 with
    | .error e => .error e
    | .ok d =>
      if neg then .ok (if d = 2 ^ 63 then -(2 ^ 63 : Int) else -(d : Int))
      else if d > 2 ^ 63 - 1 then .error (.invalid orig)
      else .ok (d : Int)

end Duration

/-! ## Errors and formatting -/

/-- The reasons for which `url.Parse` fails. -/
inductive URLErr where
  /-- "net/url: invalid control character in URL" -/
  | controlCharacter
  /-- "missing protocol scheme" -/
  | missingScheme
  /-- "first path segment in URL cannot contain colon" -/
  | colonInFirstSegment
  /-- "net/url: invalid userinfo" -/
  | invalidUserinfo
  /-- "missing ']' in host" -/
  | missingBracket
  /-- "invalid port PORT after host" -/
  | invalidPort (port : GoString)
  /-- an `url.EscapeError`: "invalid URL escape S" -/
  | escape (s : GoString)
  /-- an `url.InvalidHostError`: "invalid character S in host name" -/
  | invalidHost (s : GoString)
  deriving DecidableEq, Repr

/-- The error values of the library calls the program wraps with `%w`. -/
inductive LibError where
  /-- a `*strconv.NumError` -/
  | num (e : NumError)
  /-- an error of `time.ParseDuration` -/
  | duration (e : DurationError)
  /-- the `*url.Error` of `url.Parse`: the text parsed and the reason -/
  | url (text : GoString) (reason : URLErr)
  /-- whatever error the HTTP client returned, by its message -/
  | transport (msg : GoString)
  deriving DecidableEq, Repr

/-- An `error` built by `fmt.Errorf`: `text` is the formatted message up to
the `%w` verb, `cause` the operand of `%w` (the format strings of the program
all end with `%w` or have none). -/
structure Error where
  text : GoString
  cause : Option LibError
  deriving DecidableEq, Repr

/-- The method `Error()` of an `Error`, given the `Error()` of the library
errors. -/
def Error.message (render : LibError → GoString) (e : Error) : GoString :=
  match e.cause with
  | some c => e.text ++ render c
  | none => e.text

/-- The verb `%d` of `fmt` applied to an `int`. -/
def fmtInt (n : Int) : GoString := go (toString n)

/-! ## Configuration -/

/-- The struct `Config`; `Timeout` is a `time.Duration`, in nanoseconds. -/
structure Config where
  URL : GoString
  ExpectedStatusCode : Int
  Timeout : Int
  deriving DecidableEq, Repr

/-- The process environment as `os.LookupEnv` sees it. -/
abbrev Env := String → Option GoString

/-- The constant `time.Second`, in nanoseconds. -/
def Second : Int := 1000000000

/-- The constant `http.StatusOK`. -/
def StatusOK : Int := 200

/-- The function `initConfig`. -/
def initConfig : Config :=
  { URL := go "http://localhost"
    ExpectedStatusCode := StatusOK
    Timeout := 2 * Second }

section Resolve

variable (fracNanos : Nat → Nat → Nat → Nat)

/-- The function `loadEnvConfig`: the `Config` behind the pointer after the
call, and the error returned (`none` for `nil`). -/
def loadEnvConfig (env : Env) (cfg : Config) : Config × Option Error :=
  let cfg1 : Config :=
    match env "HC_URL" with
    | some val => { cfg with URL := val }
    | none => cfg
  let step2 : Config × Option Error :=
    match env "HC_EXPECTED_STATUS_CODE" with
    | some val =>
      match Atoi val with
      | .ok code => ({ cfg1 with ExpectedStatusCode := code }, none)
      | .error err =>
        (cfg1, some ⟨go "invalid value for HC_EXPECTED_STATUS_CODE (" ++ val ++
          go "), using default: ", some (.num err)⟩)
    | none => (cfg1, none)
  match step2 with
  | (cfg2, some e) => (cfg2, some e)
  | (cfg2, none) =>
    match env "HC_TIMEOUT" with
    | some val =>
      match ParseDuration fracNanos val with
      | .ok duration => ({ cfg2 with Timeout := duration }, none)
      | .error err =>
        (cfg2, some ⟨go "invalid value for HC_TIMEOUT (" ++ val ++
          go "), using default: ", some (.duration err)⟩)
    | none => (cfg2, none)

/-! ## The `flag` package, for the three flags of `parseFlags` -/

/-- The errors of `(*FlagSet).parseOne`. -/
inductive FlagError where
  /-- `flag.ErrHelp`: `-h` or `-help` was given -/
  | help
  | badSyntax (arg : GoString)
  | notDefined (name : GoString)
  | needsArgument (name : GoString)
  | invalidValue (value name : GoString)
  deriving DecidableEq, Repr

/-- The part of `flag.CommandLine` that changes while parsing: the variables
the three flags are bound to, the names of the flags set so far (`actual`)
and the arguments left. -/
structure FlagSet where
  vars : Config
  actual : List GoString
  args : List GoString
  deriving DecidableEq, Repr

/-- What `parseOne` returns: `(true, nil)`, `(false, nil)` or `(false, err)`. -/
inductive ParseOne where
  | seen (f : FlagSet)
  | done (f : FlagSet)
  | fail (e : FlagError)
  deriving DecidableEq, Repr

/-- The loop of `parseOne` that splits `name=value` at the first `=` past
the first byte ("equals cannot be first"); `acc` holds the bytes passed
over, in reverse. -/
def splitEquals : GoString → GoString → GoString × Option GoString
  | acc, [] => (acc.reverse, none)
  | acc, c :: s =>
    if c = 0x3d && acc ≠ [] then (acc.reverse, some s)
    else splitEquals (c :: acc) s

/-- The method `Set` of the three flag values: `stringValue` for `-url`,
`intValue` (`strconv.ParseInt(s, 0, 64)`) for `-status`, `durationValue`
(`time.ParseDuration`) for `-timeout`; `none` for an undefined flag. -/
def setFlag (vars : Config) (name value : GoString) : Option (Option Config) :=
  if name = go "url" then some (some { vars with URL := value })
  else if name = go "status" then
    match ParseInt value 0 with
    | .ok v => some (some { vars with ExpectedStatusCode := v })
    | .error _ => some none
  else if name = go "timeout" then
    match ParseDuration fracNanos value with
    | .ok v => some (some { vars with Timeout := v })
    | .error _ => some none
  else none

/-- The method `(*FlagSet).parseOne`. -/
def parseOne (f : FlagSet) : ParseOne :=
  match f.args with
  | [] => .done f
  | s :: rest =>
    match s with
    | c0 :: c1 :: s2 =>
      if c0 ≠ 0x2d then .done f
      else if c1 = 0x2d && s2 = [] then .done { f with args := rest }
      else
        let name0 := if c1 = 0x2d then s2 else c1 :: s2
        match name0 with
        | [] => .fail (.badSyntax s)
        | n0 :: _ =>
          if n0 = 0x2d || n0 = 0x3d then .fail (.badSyntax s)
          else
            let (name, inlineValue) := splitEquals [] name0
            if name ≠ go "url" ∧ name ≠ go "status" ∧ name ≠ go "timeout" then
              if name = go "help" || name = go "h" then .fail .help
              else .fail (.notDefined name)
            else
              let valueAndRest : Option (GoString × List GoString) :=
                match inlineValue, rest with
                | some v, _ => some (v, rest)
                | none, v :: rest1 => some (v, rest1)
                | none, [] => none
              match valueAndRest with
              | none => .fail (.needsArgument name)
              | some (value, rest1) =>
                match setFlag fracNanos f.vars name value with
                | some (some vars) =>
                  .seen { vars := vars, actual := name :: f.actual, args := rest1 }
                | _ => .fail (.invalidValue value name)
    | _ => .done f

/-- A function either returns or ends the process through `os.Exit`. -/
inductive Run (α : Type) where
  | ret (a : α)
  | exit (code : Nat)
  deriving DecidableEq, Repr

/-- The loop of `(*FlagSet).Parse` with the `ExitOnError` handling of
`flag.CommandLine`: `os.Exit(0)` on `ErrHelp`, `os.Exit(2)` on any other
error.  Every `seen` step removes an argument, so `fuel` above the number of
arguments is never exhausted (see `parseLoop_fuel`). -/
def parseLoop : Nat → FlagSet → Run FlagSet
  | 0, f => .ret f
  | fuel + 1, f =>
    match parseOne fracNanos f with
    | .seen f1 => parseLoop fuel f1
    | .done f1 => .ret f1
    | .fail .help => .exit 0
    | .fail _ => .exit 2

/-- The function `parseFlags`: the three flags are bound to the fields of
`cfg` with the current values as defaults, and `flag.Parse()` parses
`os.Args[1:]`. -/
def parseFlags (args : List GoString) (cfg : Config) : Run Config :=
  match parseLoop fracNanos (args.length + 1) { vars := cfg, actual := [], args := args } with
  | .ret f => .ret f.vars
  | .exit code => .exit code

/-- The function `loadConfig`. -/
def loadConfig (env : Env) (args : List GoString) : Run (Config × Option Error) :=
  match loadEnvConfig fracNanos env initConfig with
  | (_, some err) => .ret ({ URL := [], ExpectedStatusCode := 0, Timeout := 0 }, some err)
  | (cfg, none) =>
    match parseFlags fracNanos args cfg with
    | .ret cfg1 => .ret (cfg1, none)
    | .exit code => .exit code

end Resolve

/-! ## `net/url`: `Parse` and `(*URL).String` -/

/-- The type `url.Userinfo`. -/
structure Userinfo where
  username : GoString
  password : GoString
  passwordSet : Bool
  deriving DecidableEq, Repr

/-- The type `url.URL`. -/
structure URL where
  Scheme : GoString := []
  Opaque : GoString := []
  User : Option Userinfo := none
  Host : GoString := []
  Path : GoString := []
  RawPath : GoString := []
  OmitHost : Bool := false
  ForceQuery : Bool := false
  RawQuery : GoString := []
  Fragment : GoString := []
  RawFragment : GoString := []
  deriving DecidableEq, Repr

/-- The escaping modes of `net/url` that `Parse` and `String` use. -/
inductive Encoding where
  | encodePath
  | encodeHost
  | encodeZone
  | encodeUserPassword
  | encodeFragment
  deriving DecidableEq, Repr

/-- Whether `c` is one of the bytes of the string literal `set`. -/
def oneOf (c : UInt8) (set : String) : Bool := (go set).contains c

/-- The function `ishex` of `net/url`. -/
def ishex (c : UInt8) : Bool :=
  isDigit c || (0x61 ≤ c && c ≤ 0x66) || (0x41 ≤ c && c ≤ 0x46)

/-- The function `unhex` of `net/url`. -/
def unhex (c : UInt8) : UInt8 :=
  if isDigit c then c - 0x30
  else if 0x61 ≤ c && c ≤ 0x66 then c - 0x61 + 10
  else if 0x41 ≤ c && c ≤ 0x46 then c - 0x41 + 10
  else 0

/-- The function `shouldEscape` of `net/url`. -/
def shouldEscape (c : UInt8) (mode : Encoding) : Bool :=
  if (0x61 ≤ c && c ≤ 0x7a) || (0x41 ≤ c && c ≤ 0x5a) || isDigit c then false
  else if (mode = .encodeHost || mode = .encodeZone) && oneOf c "!$&'()*+,;=:[]<>\"" then false
  else if oneOf c "-_.~" then false
  else if oneOf c "$&+,/:;=?@" then
    match mode with
    | .encodePath => c = 0x3f
    | .encodeUserPassword => oneOf c "@/?:"
    | .encodeFragment => false
    | _ => true
  else if mode = .encodeFragment && oneOf c "!()*" then false
  else true

/-- The first loop of `unescape`: checks that every `%` starts a well-formed
escape and that a host holds no byte that must be escaped. -/
def unescapeCheck (mode : Encoding) : GoString → Except URLErr Unit
  | [] => .ok ()
  | 0x25 :: rest =>
    match rest with
    | h1 :: h2 :: rest2 =>
      if !ishex h1 || !ishex h2 then .error (.escape ((0x25 :: rest).take 3))
      else if mode = .encodeHost && unhex h1 < 8 && [0x25, h1, h2] ≠ go "%25" then
        .error (.escape [0x25, h1, h2])
      else if mode = .encodeZone && [0x25, h1, h2] ≠ go "%25"
          && (unhex h1 <<< 4 ||| unhex h2) ≠ 0x20
          && shouldEscape (unhex h1 <<< 4 ||| unhex h2) .encodeHost then
        .error (.escape [0x25, h1, h2])
      else unescapeCheck mode rest2
    | _ => .error (.escape ((0x25 :: rest).take 3))
  | c :: rest =>
    if c ≠ 0x2b && (mode = .encodeHost || mode = .encodeZone) && c < 0x80
        && shouldEscape c .encodeHost then
      .error (.invalidHost [c])
    else unescapeCheck mode rest

/-- The second loop of `unescape`: replaces every `%XY` by its byte. -/
def unescapeBytes : GoString → GoString
  | [] => []
  | 0x25 :: h1 :: h2 :: rest => (unhex h1 <<< 4 ||| unhex h2) :: unescapeBytes rest
  | c :: rest => c :: unescapeBytes rest

/-- The function `unescape` of `net/url`. -/
def unescape (s : GoString) (mode : Encoding) : Except URLErr GoString :=
  match unescapeCheck mode s with
  | .error e => .error e
  | .ok () => .ok (unescapeBytes s)

/-- The upper-case hexadecimal digit of a nibble (`upperhex`). -/
def upperhex (n : UInt8) : UInt8 := if n < 10 then 0x30 + n else 0x41 + (n - 10)

/-- The function `escape` of `net/url`. -/
def escape (s : GoString) (mode : Encoding) : GoString :=
  s.flatMap fun c =>
    if shouldEscape c mode then [0x25, upperhex (c >>> 4), upperhex (c &&& 15)] else [c]

/-- The function `validEncoded` of `net/url`. -/
def validEncoded (s : GoString) (mode : Encoding) : Bool :=
  s.all fun c => oneOf c "!$&'()*+,;=:@[]%" || !shouldEscape c mode

/-- The function `validUserinfo` of `net/url`. -/
def validUserinfo (s : GoString) : Bool :=
  s.all fun r =>
    (0x41 ≤ r && r ≤ 0x5a) || (0x61 ≤ r && r ≤ 0x7a) || isDigit r
      || oneOf r "-._:~!$&'()*+,;=%@"

/-- The function `validOptionalPort` of `net/url`. -/
def validOptionalPort : GoString → Bool
  | [] => true
  | c :: rest => c = 0x3a && rest.all isDigit

/-- The function `stringContainsCTLByte` of `net/url`. -/
def stringContainsCTLByte (s : GoString) : Bool := s.any fun b => b < 0x20 || b = 0x7f

/-- The function `getScheme` of `net/url`; `acc` holds the bytes passed over,
in reverse. -/
def getScheme (rawURL : GoString) : GoString → GoString → Except URLErr (GoString × GoString)
  | _, [] => .ok ([], rawURL)
  | acc, c :: s =>
    if (0x61 ≤ c && c ≤ 0x7a) || (0x41 ≤ c && c ≤ 0x5a) then getScheme rawURL (c :: acc) s
    else if isDigit c || c = 0x2b || c = 0x2d || c = 0x2e then
      if acc = [] then .ok ([], rawURL) else getScheme rawURL (c :: acc) s
    else if c = 0x3a then
      if acc = [] then .error .missingScheme else .ok (acc.reverse, s)
    else .ok ([], rawURL)

/-- Go's `strings.ToLower` on ASCII text. -/
def toLower (s : GoString) : GoString :=
  s.map fun c => if 0x41 ≤ c && c ≤ 0x5a then c + 0x20 else c

/-- The function `parseHost` of `net/url`, as of Go 1.21: only the text after the last
colon is checked as a port, and a bracketed host is not required to be an IP literal.
Later releases also reject a host such as `localhost:80:80` or `[example.com]`. -/
def parseHost (host : GoString) : Except URLErr GoString :=
  let plain : Except URLErr GoString := unescape host .encodeHost
  if hasPrefix host (go "[") then
    match lastIndexByte 0x5d host with
    | none => .error .missingBracket
    | some i =>
      let colonPort := host.drop (i + 1)
      if !validOptionalPort colonPort then .error (.invalidPort colonPort)
      else
        match indexOf (go "%25") (host.take i) with
        | some zone =>
          match unescape (host.take zone) .encodeHost with
          | .error e => .error e
          | .ok host1 =>
            match unescape ((host.take i).drop zone) .encodeZone with
            | .error e => .error e
            | .ok host2 =>
              match unescape (host.drop i) .encodeHost with
              | .error e => .error e
              | .ok host3 => .ok (host1 ++ host2 ++ host3)
        | none => plain
  else
    match lastIndexByte 0x3a host with
    | some i =>
      let colonPort := host.drop i
      if !validOptionalPort colonPort then .error (.invalidPort colonPort) else plain
    | none => plain

/-- The function `parseAuthority` of `net/url`. -/
def parseAuthority (authority : GoString) : Except URLErr (Option Userinfo × GoString) :=
  match lastIndexByte 0x40 authority with
  | none =>
    match parseHost authority with
    | .error e => .error e
    | .ok host => .ok (none, host)
  | some i =>
    match parseHost (authority.drop (i + 1)) with
    | .error e => .error e
    | .ok host =>
      let userinfo := authority.take i
      if !validUserinfo userinfo then .error .invalidUserinfo
      else if !containsStr userinfo (go ":") then
        match unescape userinfo .encodeUserPassword with
        | .error e => .error e
        | .ok u => .ok (some ⟨u, [], false⟩, host)
      else
        let (username, password, _) := cut userinfo (go ":")
        match unescape username .encodeUserPassword with
        | .error e => .error e
        | .ok u =>
          match unescape password .encodeUserPassword with
          | .error e => .error e
          | .ok pw => .ok (some ⟨u, pw, true⟩, host)

/-- The method `(*URL).setPath`. -/
def URL.setPath (u : URL) (p : GoString) : Except URLErr URL :=
  match unescape p .encodePath with
  | .error e => .error e
  | .ok path =>
    .ok { u with Path := path, RawPath := if p = escape path .encodePath then [] else p }

/-- The method `(*URL).setFragment`. -/
def URL.setFragment (u : URL) (f : GoString) : Except URLErr URL :=
  match unescape f .encodeFragment with
  | .error e => .error e
  | .ok frag =>
    .ok { u with Fragment := frag,
                 RawFragment := if f = escape frag .encodeFragment then [] else f }

/-- The function `parse` of `net/url` with `viaRequest = false`. -/
def parse (rawURL : GoString) : Except URLErr URL :=
  if stringContainsCTLByte rawURL then .error .controlCharacter
  else if rawURL = go "*" then .ok { Path := go "*" }
  else
    match getScheme rawURL [] rawURL with
    | .error e => .error e
    | .ok (scheme0, rest0) =>
      let scheme := toLower scheme0
      let (forceQuery, rest1, rawQuery) : Bool × GoString × GoString :=
        if rest0.getLast? = some 0x3f && rest0.count 0x3f = 1 then
          (true, rest0.dropLast, [])
        else
          let (before, after, _) := cut rest0 (go "?")
          (false, before, after)
      let url : URL := { Scheme := scheme, ForceQuery := forceQuery, RawQuery := rawQuery }
      if !hasPrefix rest1 (go "/") && scheme ≠ [] then .ok { url with Opaque := rest1 }
      else if !hasPrefix rest1 (go "/") && containsStr (cut rest1 (go "/")).1 (go ":") then
        .error .colonInFirstSegment
      else if (scheme ≠ [] || !hasPrefix rest1 (go "///")) && hasPrefix rest1 (go "//") then
        let authority0 := rest1.drop 2
        let (authority, rest2) : GoString × GoString :=
          match indexOf (go "/") authority0 with
          | some i => (authority0.take i, authority0.drop i)
          | none => (authority0, [])
        match parseAuthority authority with
        | .error e => .error e
        | .ok (user, host) => URL.setPath { url with User := user, Host := host } rest2
      else if scheme ≠ [] && hasPrefix rest1 (go "/") then
        URL.setPath { url with OmitHost := true } rest1
      else URL.setPath url rest1

/-- The function `url.Parse`; the error is the `*url.Error` with `Op = "parse"`,
the text parsed and the reason. -/
def urlParse (rawURL : GoString) : Except (GoString × URLErr) URL :=
  let (u, frag, _) := cut rawURL (go "#")
  match parse u with
  | .error e => .error (u, e)
  | .ok url =>
    if frag = [] then .ok url
    else
      match URL.setFragment url frag with
      | .error e => .error (rawURL, e)
      | .ok url1 => .ok url1

/-- The method `(*URL).EscapedPath`. -/
def URL.EscapedPath (u : URL) : GoString :=
  if u.RawPath ≠ [] && validEncoded u.RawPath .encodePath
      && unescape u.RawPath .encodePath = .ok u.Path then u.RawPath
  else if u.Path = go "*" then go "*"
  else escape u.Path .encodePath

/-- The method `(*URL).EscapedFragment`. -/
def URL.EscapedFragment (u : URL) : GoString :=
  if u.RawFragment ≠ [] && validEncoded u.RawFragment .encodeFragment
      && unescape u.RawFragment .encodeFragment = .ok u.Fragment then u.RawFragment
  else escape u.Fragment .encodeFragment

/-- The method `(*Userinfo).String`. -/
def Userinfo.String (u : Userinfo) : GoString :=
  escape u.username .encodeUserPassword ++
    (if u.passwordSet then go ":" ++ escape u.password .encodeUserPassword else [])

/-- The method `(*URL).String`. -/
def URL.String (u : URL) : GoString :=
  let buf0 : GoString := if u.Scheme ≠ [] then u.Scheme ++ go ":" else []
  let buf1 : GoString :=
    if u.Opaque ≠ [] then buf0 ++ u.Opaque
    else
      let auth : GoString :=
        if u.Scheme ≠ [] || u.Host ≠ [] || u.User.isSome then
          if u.OmitHost && u.Host = [] && u.User.isNone then []
          else
            (if u.Host ≠ [] || u.Path ≠ [] || u.User.isSome then go "//" else []) ++
            (match u.User with
              | some ui => ui.String ++ go "@"
              | none => []) ++
            (if u.Host ≠ [] then escape u.Host .encodeHost else [])
        else []
      let path := u.EscapedPath
      let slash : GoString :=
        if path ≠ [] && path.head? ≠ some 0x2f && u.Host ≠ [] then go "/" else []
      let buf := buf0 ++ auth ++ slash
      let dot : GoString :=
        if buf = [] && containsStr (cut path (go "/")).1 (go ":") then go "./" else []
      buf ++ dot ++ path
  let buf2 : GoString :=
    if u.ForceQuery || u.RawQuery ≠ [] then buf1 ++ go "?" ++ u.RawQuery else buf1
  if u.Fragment ≠ [] then buf2 ++ go "#" ++ u.EscapedFragment else buf2

/-! ## The health check -/

/-- The part of an `*http.Response` the program reads. -/
structure Response where
  StatusCode : Int
  deriving DecidableEq, Repr

/-- The interface `HTTPClient`: what `Get` returns for a URL, a response with a
`nil` error or a non-`nil` error (by its message). -/
abbrev HTTPClient := GoString → Except GoString Response

/-- The value of a log attribute: `slog.String`, `slog.Int`, and
`slog.String` of the text `err.Error()` of an error. -/
inductive AttrValue where
  | str (s : GoString)
  | int (n : Int)
  | errorText (e : Error)
  deriving DecidableEq, Repr

/-- The levels `slog.LevelInfo` and `slog.LevelError`. -/
inductive Level where
  | info
  | error
  deriving DecidableEq, Repr

/-- What the program does to the outside world, in order. -/
inductive Event where
  /-- the construction `&http.Client{Timeout: timeout}` -/
  | newClient (timeout : Int)
  /-- a call `client.Get(url)` -/
  | get (url : GoString)
  /-- the deferred `resp.Body.Close()` -/
  | closeBody
  /-- a call of `slog.LogAttrs` -/
  | log (level : Level) (msg : String) (attrs : List (String × AttrValue))
  deriving DecidableEq, Repr

/-- The function `performHealthCheck`: the events in order and the error
returned (`none` for `nil`). -/
def performHealthCheck (cfg : Config) (client : HTTPClient) : List Event × Option Error :=
  match urlParse cfg.URL with
  | .error (text, reason) => ([], some ⟨go "invalid URL: ", some (.url text reason)⟩)
  | .ok target =>
    match client target.String with
    | .error err =>
      ([.get target.String],
        some ⟨go "unable to reach " ++ target.String ++ go ": ", some (.transport err)⟩)
    | .ok resp =>
      if resp.StatusCode ≠ cfg.ExpectedStatusCode then
        ([.get target.String, .closeBody],
          some ⟨go "unexpected status code received: expected " ++
            fmtInt cfg.ExpectedStatusCode ++ go ", got " ++ fmtInt resp.StatusCode, none⟩)
      else
        ([.get target.String,
          .log .info "Health check successful"
            [("target", .str target.String), ("statusCode", .int resp.StatusCode)],
          .closeBody], none)

section Main

variable (fracNanos : Nat → Nat → Nat → Nat)

/-- The function `main`: the events in order and the exit status of the
process.  `net timeout` is the behaviour of an `http.Client` with that
timeout.  `setupLogger` and `slog.SetDefault` choose where the log records
go; the records themselves are the `log` events. -/
def main (env : Env) (args : List GoString) (net : Int → HTTPClient) : List Event × Nat :=
  match loadConfig fracNanos env args with
  | .exit code => ([], code)
  | .ret (_, some err) =>
    ([.log .error "Error loading config" [("error", .errorText err)]], 1)
  | .ret (cfg, none) =>
    match performHealthCheck cfg (net cfg.Timeout) with
    | (events, some err) =>
      (.newClient cfg.Timeout :: events ++
        [.log .error "Health check failed" [("error", .errorText err)]], 1)
    | (events, none) => (.newClient cfg.Timeout :: events, 0)

end Main

/-! ## Environments and layering -/

/-- An environment with no variable set. -/
def emptyEnv : Env := fun _ => none

/-- The environment `env` after `os.Setenv(name, value)`. -/
def setenv (env : Env) (name : String) (value : GoString) : Env :=
  fun k => if k = name then some value else env k

/-- The value an environment variable contributes to a field: the parsed
value when the variable is set and parses, the old value otherwise. -/
def envField {ε α : Type} (parse : GoString → Except ε α) (old : α) : Option GoString → α
  | some v =>
    match parse v with
    | .ok a => a
    | .error _ => old
  | none => old

/-- The environment of `TestLoadEnvConfig`. -/
def testEnv : Env :=
  setenv (setenv (setenv emptyEnv "HC_URL" (go "http://example.com"))
    "HC_EXPECTED_STATUS_CODE" (go "201")) "HC_TIMEOUT" (go "3s")

/-! ## Reading the events -/

/-- The URLs of the calls `client.Get` among the events, in order. -/
def getCalls : List Event → List GoString
  | [] => []
  | .get url :: rest => url :: getCalls rest
  | _ :: rest => getCalls rest

/-- Whether the event is a log record. -/
def Event.isLog : Event → Bool
  | .log _ _ _ => true
  | _ => false

/-- A client whose `Get` answers every request with the status `code`, as the
test server of `TestPerformHealthCheck` does with 200. -/
def serverAnswering (code : Int) : HTTPClient := fun _ => .ok ⟨code⟩

/-- A client whose `Get` fails on every request with the message `msg`. -/
def failingClient (msg : GoString) : HTTPClient := fun _ => .error msg

/-! ## The flags given on the command line -/

/-- The text `name` or `name=value` of a flag argument, after its one or two dashes;
`none` for an argument that is not a flag (shorter than two bytes, or not starting with
`-`, or the terminator `--`) and for a flag with bad syntax (a name that is empty or
starts with `-` or `=`). -/
def flagText (s : GoString) : Option GoString :=
  match s with
  | c0 :: c1 :: s2 =>
    if c0 ≠ 0x2d then none
    else if c1 = 0x2d && s2 = [] then none
    else
      match (if c1 = 0x2d then s2 else c1 :: s2) with
      | [] => none
      | n0 :: r => if n0 = 0x2d || n0 = 0x3d then none else some (n0 :: r)
  | _ => none

/-- The flags given on the command line, as the pairs (name, value) in the order given:
every leading argument of the form `-name=value` or `--name=value`, or `-name` or
`--name` followed by the value as the next argument, up to the first argument that is
not a flag. -/
def givenFlags : List GoString → List (GoString × GoString)
  | [] => []
  | [s] =>
    match flagText s with
    | none => []
    | some t =>
      match splitEquals [] t with
      | (name, some w) => [(name, w)]
      | (_, none) => []
  | s :: v :: rest =>
    match flagText s with
    | none => []
    | some t =>
      match splitEquals [] t with
      | (name, some w) => (name, w) :: givenFlags (v :: rest)
      | (name, none) => (name, v) :: givenFlags rest

/-- The value given to the flag `name` on the command line: the value of its last
occurrence among the flags given, `none` when it was not given. -/
def lastValue (name : GoString) : List (GoString × GoString) → Option GoString
  | [] => none
  | (n, v) :: rest =>
    match lastValue name rest with
    | some w => some w
    | none => if n = name then some v else none

/-- The layering of the claim, for one field: `final` is the flag value if the flag was
given, otherwise the environment value if the variable is set, otherwise the default;
`parseFlag` and `parseEnv` read the text of a value. -/
def Layered {ε ε1 α : Type} (parseFlag : GoString → Except ε α)
    (parseEnv : GoString → Except ε1 α) (flag env : Option GoString) (dflt final : α) :
    Prop :=
  match flag, env with
  | some v, _ => parseFlag v = .ok final
  | none, some w => parseEnv w = .ok final
  | none, none => final = dflt

/-- One layer: `final` is the flag value if the flag was given, otherwise `below`. -/
def FlagLayer {ε α : Type} (parseFlag : GoString → Except ε α) (flag : Option GoString)
    (below final : α) : Prop :=
  match flag with
  | some v => parseFlag v = .ok final
  | none => final = below

/-- How a text is read into a string field: verbatim, never failing. -/
def verbatim (v : GoString) : Except Unit GoString := .ok v

/-- The environment of `TestLoadConfig`. -/
def testEnvLoadConfig : Env :=
  setenv (setenv (setenv emptyEnv "HC_URL" (go "http://test.com"))
    "HC_EXPECTED_STATUS_CODE" (go "201")) "HC_TIMEOUT" (go "3s")

/-- Whether the argument is the flag `h` or `help`, with one or two dashes and with or
without `=value`. -/
def isHelpFlag (s : GoString) : Bool :=
  match flagText s with
  | some t => (splitEquals [] t).1 = go "help" || (splitEquals [] t).1 = go "h"
  | none => false

/-! # Theorems -/

/-! ## `loadEnvConfig` -/

/-- The error `loadEnvConfig` returns, by cases on the two parsed variables. -/
theorem loadEnvConfig_snd (fr : Nat → Nat → Nat → Nat) (env : Env) (cfg : Config) :
    (loadEnvConfig fr env cfg).2 =
      match env "HC_EXPECTED_STATUS_CODE" with
      | some v =>
        match Atoi v with
        | .error e =>
          some ⟨go "invalid value for HC_EXPECTED_STATUS_CODE (" ++ v ++
            go "), using default: ", some (.num e)⟩
        | .ok _ =>
          match env "HC_TIMEOUT" with
          | some w =>
            match ParseDuration fr w with
            | .error e =>
              some ⟨go "invalid value for HC_TIMEOUT (" ++ w ++
                go "), using default: ", some (.duration e)⟩
            | .ok _ => none
          | none => none
      | none =>
        match env "HC_TIMEOUT" with
        | some w =>
          match ParseDuration fr w with
          | .error e =>
            some ⟨go "invalid value for HC_TIMEOUT (" ++ w ++
              go "), using default: ", some (.duration e)⟩
          | .ok _ => none
        | none => none := by
  unfold loadEnvConfig
  cases h1 : env "HC_EXPECTED_STATUS_CODE" with
  | none =>
    cases h2 : env "HC_TIMEOUT" with
    | none => simp
    | some w => cases h3 : ParseDuration fr w <;> simp [h3]
  | some v =>
    cases h4 : Atoi v with
    | error e => simp [h4]
    | ok n =>
      cases h2 : env "HC_TIMEOUT" with
      | none => simp [h4]
      | some w => cases h3 : ParseDuration fr w <;> simp [h3, h4]


/-- The `Config` `loadEnvConfig` leaves when it returns no error. -/
theorem loadEnvConfig_fst (fr : Nat → Nat → Nat → Nat) (env : Env) (cfg : Config)
    (h : (loadEnvConfig fr env cfg).2 = none) :
    (loadEnvConfig fr env cfg).1 =
      { URL := (env "HC_URL").getD cfg.URL
        ExpectedStatusCode := envField Atoi cfg.ExpectedStatusCode (env "HC_EXPECTED_STATUS_CODE")
        Timeout := envField (ParseDuration fr) cfg.Timeout (env "HC_TIMEOUT") } := by
  revert h
  unfold loadEnvConfig envField
  cases h0 : env "HC_URL" <;>
  cases h1 : env "HC_EXPECTED_STATUS_CODE" with
  | none =>
    cases h2 : env "HC_TIMEOUT" with
    | none => simp
    | some w => cases h3 : ParseDuration fr w <;> simp [h3]
  | some v =>
    cases h4 : Atoi v with
    | error e => simp [h4]
    | ok n =>
      cases h2 : env "HC_TIMEOUT" with
      | none => simp [h4]
      | some w => cases h3 : ParseDuration fr w <;> simp [h3, h4]


/-- C8. `initConfig` is {"http://localhost", 200, 2s}; `loadEnvConfig` with none of
the three variables set returns no error and leaves the `Config` unchanged;
and with an empty environment and no arguments `loadConfig` returns exactly
the default `Config` and no error. -/
theorem default_config (fr : Nat → Nat → Nat → Nat) :
    initConfig = ⟨go "http://localhost", 200, 2000000000⟩ ∧
    (∀ (env : Env) (cfg : Config), env "HC_URL" = none →
      env "HC_EXPECTED_STATUS_CODE" = none → env "HC_TIMEOUT" = none →
      loadEnvConfig fr env cfg = (cfg, none)) ∧
    loadConfig fr emptyEnv [] = .ret (⟨go "http://localhost", 200, 2000000000⟩, none) := by
  refine ⟨rfl, ?_, rfl⟩
  intro env cfg h0 h1 h2
  simp [loadEnvConfig, h0, h1, h2]

/-- A witness of C8: the empty environment sets none of the variables. -/
theorem default_config_witness :
    loadEnvConfig (fun _ _ _ => 0) emptyEnv initConfig = (initConfig, none) :=
  (default_config (fun _ _ _ => 0)).2.1 emptyEnv initConfig rfl rfl rfl

/-- C1. `loadEnvConfig` returns an error exactly when `HC_EXPECTED_STATUS_CODE`
is set to a value `strconv.Atoi` rejects or `HC_TIMEOUT` is set to a value
`time.ParseDuration` rejects; `invalid` is rejected by both, so either variable
set to `invalid` fails; and the error returned does not depend on `HC_URL` nor
on the starting `Config`. -/
theorem loadEnvConfig_error_iff (fr : Nat → Nat → Nat → Nat) :
    (∀ (env : Env) (cfg : Config),
      (loadEnvConfig fr env cfg).2 ≠ none ↔
        (∃ v e, env "HC_EXPECTED_STATUS_CODE" = some v ∧ Atoi v = .error e) ∨
        (∃ v e, env "HC_TIMEOUT" = some v ∧ ParseDuration fr v = .error e)) ∧
    (∀ (env : Env) (cfg : Config), env "HC_EXPECTED_STATUS_CODE" = some (go "invalid") →
      (loadEnvConfig fr env cfg).2 ≠ none) ∧
    (∀ (env : Env) (cfg : Config), env "HC_TIMEOUT" = some (go "invalid") →
      (loadEnvConfig fr env cfg).2 ≠ none) ∧
    (∀ (env env1 : Env) (cfg cfg1 : Config),
      env1 "HC_EXPECTED_STATUS_CODE" = env "HC_EXPECTED_STATUS_CODE" →
      env1 "HC_TIMEOUT" = env "HC_TIMEOUT" →
      (loadEnvConfig fr env1 cfg1).2 = (loadEnvConfig fr env cfg).2) := by
  have hiff : ∀ (env : Env) (cfg : Config),
      (loadEnvConfig fr env cfg).2 ≠ none ↔
        (∃ v e, env "HC_EXPECTED_STATUS_CODE" = some v ∧ Atoi v = .error e) ∨
        (∃ v e, env "HC_TIMEOUT" = some v ∧ ParseDuration fr v = .error e) := by
    intro env cfg
    rw [loadEnvConfig_snd]
    cases h1 : env "HC_EXPECTED_STATUS_CODE" with
    | none =>
      cases h2 : env "HC_TIMEOUT" with
      | none => simp
      | some w => cases h3 : ParseDuration fr w <;> simp [h3]
    | some v =>
      cases h4 : Atoi v with
      | error e => simp [h4]
      | ok n =>
        cases h2 : env "HC_TIMEOUT" with
        | none => simp [h4]
        | some w => cases h3 : ParseDuration fr w <;> simp [h3, h4]
  refine ⟨hiff, ?_, ?_, ?_⟩
  · intro env cfg h
    exact (hiff env cfg).2 (Or.inl ⟨_, _, h, (rfl : Atoi (go "invalid") =
      .error ⟨"Atoi", go "invalid", .ErrSyntax⟩)⟩)
  · intro env cfg h
    exact (hiff env cfg).2 (Or.inr ⟨_, _, h, (rfl : ParseDuration fr (go "invalid") =
      .error (.invalid (go "invalid")))⟩)
  · intro env env1 cfg cfg1 h1 h2
    rw [loadEnvConfig_snd, loadEnvConfig_snd, h1, h2]

/-- A witness of C1: the two failing steps of `TestLoadEnvConfig`, and a
change of `HC_URL` that changes nothing. -/
theorem loadEnvConfig_error_iff_witness :
    (loadEnvConfig (fun _ _ _ => 0) (setenv testEnv "HC_EXPECTED_STATUS_CODE" (go "invalid"))
      initConfig).2 ≠ none ∧
    (loadEnvConfig (fun _ _ _ => 0) (setenv testEnv "HC_TIMEOUT" (go "invalid"))
      initConfig).2 ≠ none ∧
    (loadEnvConfig (fun _ _ _ => 0) (setenv testEnv "HC_URL" (go "::not a url::"))
      initConfig).2 = (loadEnvConfig (fun _ _ _ => 0) testEnv initConfig).2 :=
  ⟨(loadEnvConfig_error_iff _).2.1 _ _ rfl, (loadEnvConfig_error_iff _).2.2.1 _ _ rfl,
    (loadEnvConfig_error_iff _).2.2.2 _ _ _ _ rfl rfl⟩

/-- C2. Applied to the default `Config`, `loadEnvConfig` with only `HC_URL` set
stores the value verbatim in `URL`; with only `HC_EXPECTED_STATUS_CODE` set to
a value `strconv.Atoi` accepts it stores the integer in `ExpectedStatusCode`;
with only `HC_TIMEOUT` set to a value `time.ParseDuration` accepts it stores
the duration in `Timeout`; each time without error and leaving the other two
fields at their defaults.  With the three set to `http://example.com`, `201`
and `3s` the result is {http://example.com, 201, 3s}. -/
theorem loadEnvConfig_single_override (fr : Nat → Nat → Nat → Nat) :
    (∀ (env : Env) (u : GoString), env "HC_URL" = some u →
      env "HC_EXPECTED_STATUS_CODE" = none → env "HC_TIMEOUT" = none →
      loadEnvConfig fr env initConfig = (⟨u, StatusOK, 2 * Second⟩, none)) ∧
    (∀ (env : Env) (v : GoString) (n : Int), env "HC_URL" = none →
      env "HC_EXPECTED_STATUS_CODE" = some v → env "HC_TIMEOUT" = none → Atoi v = .ok n →
      loadEnvConfig fr env initConfig = (⟨go "http://localhost", n, 2 * Second⟩, none)) ∧
    (∀ (env : Env) (v : GoString) (d : Int), env "HC_URL" = none →
      env "HC_EXPECTED_STATUS_CODE" = none → env "HC_TIMEOUT" = some v →
      ParseDuration fr v = .ok d →
      loadEnvConfig fr env initConfig = (⟨go "http://localhost", StatusOK, d⟩, none)) ∧
    loadEnvConfig fr testEnv initConfig = (⟨go "http://example.com", 201, 3 * Second⟩, none) := by
  refine ⟨?_, ?_, ?_, rfl⟩
  · intro env u h0 h1 h2
    simp [loadEnvConfig, h0, h1, h2, initConfig]
  · intro env v n h0 h1 h2 h3
    simp [loadEnvConfig, h0, h1, h2, h3, initConfig]
  · intro env v d h0 h1 h2 h3
    simp [loadEnvConfig, h0, h1, h2, h3, initConfig]

/-- A witness of C2: each variable of `TestLoadEnvConfig` set alone. -/
theorem loadEnvConfig_single_override_witness :
    loadEnvConfig (fun _ _ _ => 0) (setenv emptyEnv "HC_URL" (go "http://example.com"))
      initConfig = (⟨go "http://example.com", 200, 2000000000⟩, none) ∧
    loadEnvConfig (fun _ _ _ => 0) (setenv emptyEnv "HC_EXPECTED_STATUS_CODE" (go "201"))
      initConfig = (⟨go "http://localhost", 201, 2000000000⟩, none) ∧
    loadEnvConfig (fun _ _ _ => 0) (setenv emptyEnv "HC_TIMEOUT" (go "3s"))
      initConfig = (⟨go "http://localhost", 200, 3000000000⟩, none) :=
  ⟨(loadEnvConfig_single_override _).1 _ _ rfl rfl rfl,
    (loadEnvConfig_single_override _).2.1 _ _ _ rfl rfl rfl rfl,
    (loadEnvConfig_single_override _).2.2.1 _ _ _ rfl rfl rfl rfl⟩

/-- C10. When `HC_EXPECTED_STATUS_CODE` is set to a value `strconv.Atoi` rejects,
the error of `loadEnvConfig` is the one for `HC_EXPECTED_STATUS_CODE`, whatever
`HC_TIMEOUT` holds; the error for `HC_TIMEOUT` is returned only when
`HC_EXPECTED_STATUS_CODE` is unset or parses.  The message of either error is
"invalid value for NAME (VALUE), using default: " followed by the message of
the parse error, so it holds the name of the variable, the raw value and the
reason.  With both variables set to `invalid` the error is the one for
`HC_EXPECTED_STATUS_CODE`. -/
theorem loadEnvConfig_first_failure (fr : Nat → Nat → Nat → Nat) :
    (∀ (env : Env) (cfg : Config) (v : GoString) (e : NumError),
      env "HC_EXPECTED_STATUS_CODE" = some v → Atoi v = .error e →
      ∃ err, (loadEnvConfig fr env cfg).2 = some err ∧ err.cause = some (.num e) ∧
        ∀ render : LibError → GoString,
          err.message render = go "invalid value for HC_EXPECTED_STATUS_CODE (" ++ v ++
            go "), using default: " ++ render (.num e) ∧
          go "HC_EXPECTED_STATUS_CODE" <:+: err.message render ∧
          v <:+: err.message render ∧ render (.num e) <:+: err.message render) ∧
    (∀ (env : Env) (cfg : Config) (w : GoString) (e : DurationError),
      (∀ v, env "HC_EXPECTED_STATUS_CODE" = some v → ∃ n, Atoi v = .ok n) →
      env "HC_TIMEOUT" = some w → ParseDuration fr w = .error e →
      ∃ err, (loadEnvConfig fr env cfg).2 = some err ∧ err.cause = some (.duration e) ∧
        ∀ render : LibError → GoString,
          err.message render = go "invalid value for HC_TIMEOUT (" ++ w ++
            go "), using default: " ++ render (.duration e) ∧
          go "HC_TIMEOUT" <:+: err.message render ∧
          w <:+: err.message render ∧ render (.duration e) <:+: err.message render) ∧
    (loadEnvConfig fr (setenv (setenv emptyEnv "HC_EXPECTED_STATUS_CODE" (go "invalid"))
        "HC_TIMEOUT" (go "invalid")) initConfig).2 =
      some ⟨go "invalid value for HC_EXPECTED_STATUS_CODE (invalid), using default: ",
        some (.num ⟨"Atoi", go "invalid", .ErrSyntax⟩)⟩ := by
  refine ⟨?_, ?_, rfl⟩
  · intro env cfg v e h1 h2
    refine ⟨⟨go "invalid value for HC_EXPECTED_STATUS_CODE (" ++ v ++ go "), using default: ",
      some (.num e)⟩, by rw [loadEnvConfig_snd]; simp only [h1, h2], rfl,
      fun render => ⟨?_, ?_, ?_, ?_⟩⟩
    · simp [Error.message]
    · exact ⟨go "invalid value for ", go " (" ++ v ++ go "), using default: " ++ render (.num e),
        by simp [Error.message]; rfl⟩
    · exact ⟨go "invalid value for HC_EXPECTED_STATUS_CODE (",
        go "), using default: " ++ render (.num e), by simp [Error.message]⟩
    · exact ⟨go "invalid value for HC_EXPECTED_STATUS_CODE (" ++ v ++ go "), using default: ",
        [], by simp [Error.message]⟩
  · intro env cfg w e h1 h2 h3
    refine ⟨⟨go "invalid value for HC_TIMEOUT (" ++ w ++ go "), using default: ",
      some (.duration e)⟩, ?_, rfl, fun render => ⟨?_, ?_, ?_, ?_⟩⟩
    · rw [loadEnvConfig_snd]
      cases h4 : env "HC_EXPECTED_STATUS_CODE" with
      | none => simp only [h2, h3]
      | some v =>
        obtain ⟨n, hn⟩ := h1 v h4
        simp only [hn, h2, h3]
    · simp [Error.message]
    · exact ⟨go "invalid value for ", go " (" ++ w ++ go "), using default: " ++
        render (.duration e), by simp [Error.message]; rfl⟩
    · exact ⟨go "invalid value for HC_TIMEOUT (",
        go "), using default: " ++ render (.duration e), by simp [Error.message]⟩
    · exact ⟨go "invalid value for HC_TIMEOUT (" ++ w ++ go "), using default: ",
        [], by simp [Error.message]⟩

/-- A witness of C10: `HC_EXPECTED_STATUS_CODE=1.5` with a valid `HC_TIMEOUT`,
and `HC_TIMEOUT=3` (no unit) with a valid `HC_EXPECTED_STATUS_CODE`. -/
theorem loadEnvConfig_first_failure_witness :
    (∃ err, (loadEnvConfig (fun _ _ _ => 0)
        (setenv testEnv "HC_EXPECTED_STATUS_CODE" (go "1.5")) initConfig).2 = some err ∧
      err.cause = some (.num ⟨"Atoi", go "1.5", .ErrSyntax⟩) ∧
      ∀ render : LibError → GoString,
        err.message render = go "invalid value for HC_EXPECTED_STATUS_CODE (" ++ go "1.5" ++
          go "), using default: " ++ render (.num ⟨"Atoi", go "1.5", .ErrSyntax⟩) ∧
        go "HC_EXPECTED_STATUS_CODE" <:+: err.message render ∧
        go "1.5" <:+: err.message render ∧
        render (.num ⟨"Atoi", go "1.5", .ErrSyntax⟩) <:+: err.message render) ∧
    (∃ err, (loadEnvConfig (fun _ _ _ => 0)
        (setenv testEnv "HC_TIMEOUT" (go "3")) initConfig).2 = some err ∧
      err.cause = some (.duration (.missingUnit (go "3"))) ∧
      ∀ render : LibError → GoString,
        err.message render = go "invalid value for HC_TIMEOUT (" ++ go "3" ++
          go "), using default: " ++ render (.duration (.missingUnit (go "3"))) ∧
        go "HC_TIMEOUT" <:+: err.message render ∧
        go "3" <:+: err.message render ∧
        render (.duration (.missingUnit (go "3"))) <:+: err.message render) :=
  ⟨(loadEnvConfig_first_failure _).1 _ initConfig (go "1.5") _ rfl rfl,
    (loadEnvConfig_first_failure _).2.1 _ initConfig (go "3") _
      (fun v hv => ⟨201, by
        have : v = go "201" := (Option.some.inj hv).symm
        rw [this]; rfl⟩) rfl rfl⟩

/-! ## `performHealthCheck` -/

/-- C4. `performHealthCheck` returns `nil` exactly when `url.Parse` accepts the
configured URL, the client's `Get` on the parsed URL's string returns a response and no
error, and the status code of the response equals `cfg.ExpectedStatusCode`; whenever the
URL parses, `Get` is called exactly once, with that string.  A server answering 200 with
expected status 200 yields success. -/
theorem performHealthCheck_ok_iff (cfg : Config) (client : HTTPClient) :
    ((performHealthCheck cfg client).2 = none ↔
      ∃ target resp, urlParse cfg.URL = .ok target ∧ client target.String = .ok resp ∧
        resp.StatusCode = cfg.ExpectedStatusCode) ∧
    (∀ target, urlParse cfg.URL = .ok target →
      getCalls (performHealthCheck cfg client).1 = [target.String]) ∧
    performHealthCheck ⟨go "http://127.0.0.1:8080", 200, 2 * Second⟩ (serverAnswering 200) =
      ([.get (go "http://127.0.0.1:8080"),
        .log .info "Health check successful"
          [("target", .str (go "http://127.0.0.1:8080")), ("statusCode", .int 200)],
        .closeBody], none) := by
  refine ⟨?_, ?_, by rfl⟩
  · unfold performHealthCheck
    cases hp : urlParse cfg.URL with
    | error e => simp
    | ok target =>
      cases hg : client target.String with
      | error msg => simp [hg]
      | ok resp =>
        by_cases hs : resp.StatusCode = cfg.ExpectedStatusCode <;> simp [hg, hs]
  · intro target hp
    unfold performHealthCheck
    simp only [hp]
    cases hg : client target.String with
    | error msg => simp [getCalls]
    | ok resp =>
      by_cases hs : resp.StatusCode = cfg.ExpectedStatusCode <;> simp [hs, getCalls]

/-- C6. When the URL parses and the client returns a response whose status code differs
from the expected one, `performHealthCheck` returns an error with no wrapped cause whose
message is "unexpected status code received: expected E, got A" with both codes in
decimal, and it emits no log record. -/
theorem performHealthCheck_unexpected_status (cfg : Config) (client : HTTPClient)
    (target : URL) (resp : Response) (hparse : urlParse cfg.URL = .ok target)
    (hget : client target.String = .ok resp)
    (hne : resp.StatusCode ≠ cfg.ExpectedStatusCode) :
    ∃ err, (performHealthCheck cfg client).2 = some err ∧ err.cause = none ∧
      (∀ render : LibError → GoString,
        err.message render = go "unexpected status code received: expected " ++
          fmtInt cfg.ExpectedStatusCode ++ go ", got " ++ fmtInt resp.StatusCode) ∧
      ∀ ev ∈ (performHealthCheck cfg client).1, ev.isLog = false := by
  refine ⟨⟨go "unexpected status code received: expected " ++
    fmtInt cfg.ExpectedStatusCode ++ go ", got " ++ fmtInt resp.StatusCode, none⟩,
    ?_, rfl, fun _ => rfl, ?_⟩
  · simp [performHealthCheck, hparse, hget, hne]
  · simp [performHealthCheck, hparse, hget, hne, Event.isLog]

/-- A witness of C6: expected 201 against a server answering 200. -/
theorem performHealthCheck_unexpected_status_witness :
    (∃ err, (performHealthCheck ⟨go "http://127.0.0.1:8080", 201, 2 * Second⟩
        (serverAnswering 200)).2 = some err ∧ err.cause = none ∧
      (∀ render : LibError → GoString,
        err.message render = go "unexpected status code received: expected " ++
          fmtInt 201 ++ go ", got " ++ fmtInt 200) ∧
      ∀ ev ∈ (performHealthCheck ⟨go "http://127.0.0.1:8080", 201, 2 * Second⟩
        (serverAnswering 200)).1, ev.isLog = false) ∧
    go "unexpected status code received: expected " ++ fmtInt 201 ++ go ", got " ++
      fmtInt 200 = go "unexpected status code received: expected 201, got 200" :=
  ⟨performHealthCheck_unexpected_status ⟨go "http://127.0.0.1:8080", 201, 2 * Second⟩
    (serverAnswering 200) { Scheme := go "http", Host := go "127.0.0.1:8080" } ⟨200⟩
    (by rfl) (by rfl) (by decide), by rfl⟩

/-- C5. The code at the input `invalid-url`, where it departs from the claim and from the
case "Invalid URL" of `TestPerformHealthCheck`: `url.Parse` accepts `invalid-url` as a
relative path, so the "invalid URL" branch of `performHealthCheck` is skipped and `Get` is
called with it.  With a client that rejects the request the error is the "unable to reach"
one, not the "invalid URL" one, and with a client that answers the expected status
`performHealthCheck` returns `nil`. -/
theorem performHealthCheck_invalid_url_calls_get :
    urlParse (go "invalid-url") = .ok { Path := go "invalid-url" } ∧
    performHealthCheck ⟨go "invalid-url", 201, 2 * Second⟩
        (failingClient (go "unsupported protocol scheme")) =
      ([.get (go "invalid-url")],
        some ⟨go "unable to reach invalid-url: ",
          some (.transport (go "unsupported protocol scheme"))⟩) ∧
    performHealthCheck ⟨go "invalid-url", 200, 2 * Second⟩ (serverAnswering 200) =
      ([.get (go "invalid-url"),
        .log .info "Health check successful"
          [("target", .str (go "invalid-url")), ("statusCode", .int 200)],
        .closeBody], none) := by
  refine ⟨by rfl, by rfl, by rfl⟩

/-- The "invalid URL" branch of `performHealthCheck` and the input that slips past it.  For
every URL that `url.Parse` rejects, `performHealthCheck` returns the "invalid URL: " error
wrapping the parse error and calls `Get` not at all; `:invalid-url` is such a URL.  For
`invalid-url`, which `url.Parse` accepts, `performHealthCheck` calls `Get` once with
`invalid-url` whatever the client, returns `nil` exactly when that call returns a response
with the expected status, and returns the "unable to reach invalid-url: " error wrapping
the client's error when that call fails. -/
theorem performHealthCheck_invalid_url (cfg : Config) (client : HTTPClient) :
    (∀ text reason, urlParse cfg.URL = .error (text, reason) →
      performHealthCheck cfg client =
        ([], some ⟨go "invalid URL: ", some (.url text reason)⟩)) ∧
    urlParse (go ":invalid-url") = .error (go ":invalid-url", .missingScheme) ∧
    (cfg.URL = go "invalid-url" →
      getCalls (performHealthCheck cfg client).1 = [go "invalid-url"] ∧
      ((performHealthCheck cfg client).2 = none ↔
        ∃ resp, client (go "invalid-url") = .ok resp ∧
          resp.StatusCode = cfg.ExpectedStatusCode) ∧
      ∀ msg, client (go "invalid-url") = .error msg →
        performHealthCheck cfg client =
          ([.get (go "invalid-url")],
            some ⟨go "unable to reach invalid-url: ", some (.transport msg)⟩)) := by
  have hp : urlParse (go "invalid-url") = .ok { Path := go "invalid-url" } := by rfl
  have hs : URL.String { Path := go "invalid-url" } = go "invalid-url" := by rfl
  refine ⟨?_, by rfl, ?_⟩
  · intro text reason h
    simp [performHealthCheck, h]
  · intro hu
    unfold performHealthCheck
    rw [hu, hp]
    simp only [hs]
    cases hg : client (go "invalid-url") with
    | error msg => simp [getCalls]; rfl
    | ok resp =>
      by_cases hst : resp.StatusCode = cfg.ExpectedStatusCode <;> simp [hst, getCalls]

/-- The two branches on concrete inputs: `:invalid-url` with a server answering 200, and
`invalid-url` with a client that rejects the request. -/
theorem performHealthCheck_invalid_url_witness :
    performHealthCheck ⟨go ":invalid-url", 200, 2 * Second⟩ (serverAnswering 200) =
      ([], some ⟨go "invalid URL: ", some (.url (go ":invalid-url") .missingScheme)⟩) ∧
    performHealthCheck ⟨go "invalid-url", 200, 2 * Second⟩
        (failingClient (go "unsupported protocol scheme")) =
      ([.get (go "invalid-url")],
        some ⟨go "unable to reach invalid-url: ",
          some (.transport (go "unsupported protocol scheme"))⟩) :=
  ⟨(performHealthCheck_invalid_url ⟨go ":invalid-url", 200, 2 * Second⟩
      (serverAnswering 200)).1 _ _ (by rfl),
    ((performHealthCheck_invalid_url ⟨go "invalid-url", 200, 2 * Second⟩
      (failingClient (go "unsupported protocol scheme"))).2.2 rfl).2.2 _ rfl⟩

/-! ## Flag parsing -/

/-- An argument that is not a flag ends the flags given. -/
theorem givenFlags_of_flagText_none (s : GoString) (rest : List GoString)
    (h : flagText s = none) : givenFlags (s :: rest) = [] := by
  cases rest <;> simp [givenFlags, h]

/-- A flag argument `-name=value` gives the pair and leaves the next arguments. -/
theorem givenFlags_inline (s t name w : GoString) (rest : List GoString)
    (h : flagText s = some t) (hs : splitEquals [] t = (name, some w)) :
    givenFlags (s :: rest) = (name, w) :: givenFlags rest := by
  cases rest <;> simp [givenFlags, h, hs]

/-- A flag argument `-name` takes the next argument as its value. -/
theorem givenFlags_next (s t name v : GoString) (rest : List GoString)
    (h : flagText s = some t) (hs : splitEquals [] t = (name, none)) :
    givenFlags (s :: v :: rest) = (name, v) :: givenFlags rest := by
  simp [givenFlags, h, hs]

/-- When `parseOne` stops without error, no flag is given at the head of the arguments
and no variable has changed. -/
theorem parseOne_done (fr : Nat → Nat → Nat → Nat) (f f1 : FlagSet)
    (h : parseOne fr f = .done f1) : givenFlags f.args = [] ∧ f1.vars = f.vars := by
  obtain ⟨vars, actual, args⟩ := f
  rcases args with _ | ⟨s, rest⟩
  · simp [parseOne] at h
    subst h
    simp [givenFlags]
  · rcases s with _ | ⟨c0, _ | ⟨c1, s2⟩⟩
    · simp [parseOne] at h
      subst h
      exact ⟨givenFlags_of_flagText_none _ _ (by simp [flagText]), rfl⟩
    · simp [parseOne] at h
      subst h
      exact ⟨givenFlags_of_flagText_none _ _ (by simp [flagText]), rfl⟩
    · simp only [parseOne] at h
      by_cases h0 : c0 = 0x2d
      · by_cases h1 : (c1 = 0x2d && s2 = []) = true
        · simp [h0, h1] at h
          subst h
          simp only [Bool.and_eq_true, decide_eq_true_eq] at h1
          exact ⟨givenFlags_of_flagText_none _ _ (by simp [flagText, h0, h1]), rfl⟩
        · simp only [h0, h1] at h
          repeat' split at h
          all_goals simp_all
      · simp [h0] at h
        subst h
        exact ⟨givenFlags_of_flagText_none _ _ (by simp [flagText, h0]), rfl⟩

/-- When `parseOne` consumes a flag, it is the first flag given, its value has been set,
and fewer arguments are left. -/
theorem parseOne_seen (fr : Nat → Nat → Nat → Nat) (f f1 : FlagSet)
    (h : parseOne fr f = .seen f1) :
    ∃ name value, givenFlags f.args = (name, value) :: givenFlags f1.args ∧
      setFlag fr f.vars name value = some (some f1.vars) ∧
      f1.args.length < f.args.length := by
  obtain ⟨vars, actual, args⟩ := f
  rcases args with _ | ⟨s, rest⟩
  · simp [parseOne] at h
  · rcases s with _ | ⟨c0, _ | ⟨c1, s2⟩⟩
    · simp [parseOne] at h
    · simp [parseOne] at h
    · simp only [parseOne] at h
      by_cases h0 : c0 = 0x2d
      swap
      · simp [h0] at h
      by_cases h1 : (c1 = 0x2d && s2 = []) = true
      · simp [h0, h1] at h
      simp only [h0, h1] at h
      generalize hn : (if c1 = 45 then s2 else c1 :: s2) = name0 at h
      rcases name0 with _ | ⟨n0, tail⟩
      · simp at h
      by_cases hbad : (decide (n0 = 45) || decide (n0 = 61)) = true
      · simp [hbad] at h
      have hft : flagText (c0 :: c1 :: s2) = some (n0 :: tail) := by
        simp only [flagText, h0, h1, hn]
        simp [hbad]
      simp only [hbad] at h
      generalize hsp : splitEquals [] (n0 :: tail) = sp at h
      obtain ⟨name, inl⟩ := sp
      simp only [ne_eq, not_true_eq_false, if_false, Bool.false_eq_true] at h
      split at h
      · split at h <;> simp at h
      rcases inl with _ | v
      · rcases rest with _ | ⟨v, rest1⟩
        · simp at h
        · simp only at h
          cases hset : setFlag fr vars name v with
          | none => simp [hset] at h
          | some r =>
            cases r with
            | none => simp [hset] at h
            | some vars1 =>
              simp only [hset, ParseOne.seen.injEq] at h
              subst h
              exact ⟨name, v, givenFlags_next _ _ _ _ _ hft hsp, hset, by simp; omega⟩
      · simp only at h
        cases hset : setFlag fr vars name v with
        | none => simp [hset] at h
        | some r =>
          cases r with
          | none => simp [hset] at h
          | some vars1 =>
            simp only [hset, ParseOne.seen.injEq] at h
            subst h
            exact ⟨name, v, givenFlags_inline _ _ _ _ _ hft hsp, hset, by simp⟩

/-- What a flag value leaves in the field it is bound to, for a parser of the values. -/
theorem setFlag_fields (fr : Nat → Nat → Nat → Nat) (vars vars1 : Config)
    (name value : GoString) (h : setFlag fr vars name value = some (some vars1)) :
    (name = go "url" ∧ vars1 = { vars with URL := value }) ∨
    (name = go "status" ∧ ∃ n, ParseInt value 0 = .ok n ∧
      vars1 = { vars with ExpectedStatusCode := n }) ∨
    (name = go "timeout" ∧ ∃ d, ParseDuration fr value = .ok d ∧
      vars1 = { vars with Timeout := d }) := by
  have e1 : go "status" ≠ go "url" := by decide
  have e2 : go "timeout" ≠ go "url" := by decide
  have e3 : go "timeout" ≠ go "status" := by decide
  unfold setFlag at h
  by_cases hu : name = go "url"
  · simp only [hu, if_true, Option.some.injEq] at h
    exact Or.inl ⟨hu, h.symm⟩
  · by_cases hs : name = go "status"
    · subst hs
      simp only [e1, if_true, if_false] at h
      cases hp : ParseInt value 0 with
      | error e => simp [hp] at h
      | ok n =>
        simp only [hp, Option.some.injEq] at h
        exact Or.inr (Or.inl ⟨rfl, n, rfl, h.symm⟩)
    · by_cases ht : name = go "timeout"
      · subst ht
        simp only [e2, e3, if_true, if_false] at h
        cases hp : ParseDuration fr value with
        | error e => simp [hp] at h
        | ok d =>
          simp only [hp, Option.some.injEq] at h
          exact Or.inr (Or.inr ⟨rfl, d, rfl, h.symm⟩)
      · simp [hu, hs, ht] at h

/-- The layer of a flag over a list of flags given, one flag at a time. -/
theorem flagLayer_cons {ε α : Type} (parse : GoString → Except ε α) (name n v : GoString)
    (rest : List (GoString × GoString)) (below mid final : α)
    (h : FlagLayer parse (lastValue name rest) mid final)
    (hstep : if n = name then parse v = .ok mid else mid = below) :
    FlagLayer parse (lastValue name ((n, v) :: rest)) below final := by
  unfold lastValue
  cases hl : lastValue name rest with
  | some w => simpa [FlagLayer, hl] using h
  | none =>
    simp only [FlagLayer, hl] at h
    subst h
    by_cases hn : n = name
    · simpa [FlagLayer, hn] using hstep
    · simpa [FlagLayer, hn] using hstep

/-- When `flag.Parse` returns, each variable holds the value of the last occurrence of
its flag, parsed, or what it held before when the flag was not given. -/
theorem parseLoop_ret (fr : Nat → Nat → Nat → Nat) :
    ∀ (fuel : Nat) (f f1 : FlagSet), parseLoop fr fuel f = .ret f1 → f.args.length < fuel →
      FlagLayer verbatim (lastValue (go "url") (givenFlags f.args)) f.vars.URL f1.vars.URL ∧
      FlagLayer (fun v => ParseInt v 0) (lastValue (go "status") (givenFlags f.args))
        f.vars.ExpectedStatusCode f1.vars.ExpectedStatusCode ∧
      FlagLayer (ParseDuration fr) (lastValue (go "timeout") (givenFlags f.args))
        f.vars.Timeout f1.vars.Timeout := by
  have e1 : go "status" ≠ go "url" := by decide
  have e2 : go "timeout" ≠ go "url" := by decide
  have e3 : go "timeout" ≠ go "status" := by decide
  intro fuel
  induction fuel with
  | zero => intro f f1 _ hlt; omega
  | succ n ih =>
    intro f f1 h hlt
    unfold parseLoop at h
    cases hp : parseOne fr f with
    | seen f2 =>
      simp only [hp] at h
      obtain ⟨name, value, hg, hset, hlen⟩ := parseOne_seen fr f f2 hp
      obtain ⟨i1, i2, i3⟩ := ih f2 f1 h (by omega)
      rw [hg]
      rcases setFlag_fields fr _ _ _ _ hset with ⟨hn, hv⟩ | ⟨hn, m, hpi, hv⟩ | ⟨hn, d, hpd, hv⟩
      · subst hn
        refine ⟨flagLayer_cons _ _ _ _ _ _ _ _ i1 ?_, flagLayer_cons _ _ _ _ _ _ _ _ i2 ?_,
          flagLayer_cons _ _ _ _ _ _ _ _ i3 ?_⟩
        · simp [hv, verbatim]
        · simp [hv, Ne.symm e1]
        · simp [hv, Ne.symm e2]
      · subst hn
        refine ⟨flagLayer_cons _ _ _ _ _ _ _ _ i1 ?_, flagLayer_cons _ _ _ _ _ _ _ _ i2 ?_,
          flagLayer_cons _ _ _ _ _ _ _ _ i3 ?_⟩
        · simp [hv, e1]
        · simp [hv, hpi]
        · simp [hv, Ne.symm e3]
      · subst hn
        refine ⟨flagLayer_cons _ _ _ _ _ _ _ _ i1 ?_, flagLayer_cons _ _ _ _ _ _ _ _ i2 ?_,
          flagLayer_cons _ _ _ _ _ _ _ _ i3 ?_⟩
        · simp [hv, e2]
        · simp [hv, e3]
        · simp [hv, hpd]
    | done f2 =>
      simp only [hp, Run.ret.injEq] at h
      subst h
      obtain ⟨hg, hv⟩ := parseOne_done fr f f2 hp
      rw [hg, hv]
      simp [lastValue, FlagLayer]
    | fail e => cases e <;> simp [hp] at h

/-! ## `loadConfig` -/

/-- When `loadEnvConfig` returns no error, the two parsed variables, if set, parse. -/
theorem loadEnvConfig_ok_parses (fr : Nat → Nat → Nat → Nat) (env : Env) (cfg : Config)
    (h : (loadEnvConfig fr env cfg).2 = none) :
    (∀ v, env "HC_EXPECTED_STATUS_CODE" = some v → ∃ n, Atoi v = .ok n) ∧
    (∀ w, env "HC_TIMEOUT" = some w → ∃ d, ParseDuration fr w = .ok d) := by
  rw [loadEnvConfig_snd] at h
  constructor
  · intro v hv
    simp only [hv] at h
    cases ha : Atoi v with
    | error e => simp [ha] at h
    | ok n => exact ⟨n, rfl⟩
  · intro w hw
    cases hp : ParseDuration fr w with
    | ok d => exact ⟨d, rfl⟩
    | error e =>
      cases h1 : env "HC_EXPECTED_STATUS_CODE" with
      | none => simp [h1, hw, hp] at h
      | some v => cases ha : Atoi v <;> simp [h1, hw, hp, ha] at h

/-- When `loadConfig` returns a `Config` and no error, `loadEnvConfig` returned no error
and `flag.Parse` returned with the `Config` in the variables. -/
theorem loadConfig_ret (fr : Nat → Nat → Nat → Nat) (env : Env) (args : List GoString)
    (cfg : Config) (h : loadConfig fr env args = .ret (cfg, none)) :
    (loadEnvConfig fr env initConfig).2 = none ∧
    ∃ f1, parseLoop fr (args.length + 1)
      { vars := (loadEnvConfig fr env initConfig).1, actual := [], args := args } = .ret f1 ∧
      f1.vars = cfg := by
  unfold loadConfig parseFlags at h
  rcases hl : loadEnvConfig fr env initConfig with ⟨cfg0, _ | err⟩
  · simp only [hl] at h
    refine ⟨rfl, ?_⟩
    cases hp : parseLoop fr (args.length + 1) { vars := cfg0, actual := [], args := args } with
    | exit code => simp [hp] at h
    | ret f1 =>
      simp only [hp, Run.ret.injEq, Prod.mk.injEq, and_true] at h
      exact ⟨f1, rfl, h⟩
  · simp [hl] at h

/-- The flag layer over the environment layer is the layering of the claim. -/
theorem layered_of_layers {ε ε1 α : Type} (parseFlag : GoString → Except ε α)
    (parseEnv : GoString → Except ε1 α) (flag envv : Option GoString) (dflt final : α)
    (h : FlagLayer parseFlag flag (envField parseEnv dflt envv) final)
    (hp : ∀ w, envv = some w → ∃ a, parseEnv w = .ok a) :
    Layered parseFlag parseEnv flag envv dflt final := by
  cases flag with
  | some v => simpa [Layered, FlagLayer] using h
  | none =>
    cases envv with
    | none => simpa [Layered, FlagLayer, envField] using h
    | some w =>
      obtain ⟨a, ha⟩ := hp w rfl
      simp only [FlagLayer, envField, ha] at h
      simp [Layered, ha, h]

/-- The layering of the three fields of the `Config` that `loadConfig` returns. -/
theorem loadConfig_layers (fr : Nat → Nat → Nat → Nat) (env : Env) (args : List GoString)
    (cfg : Config) (h : loadConfig fr env args = .ret (cfg, none)) :
    Layered verbatim verbatim (lastValue (go "url") (givenFlags args)) (env "HC_URL")
      (go "http://localhost") cfg.URL ∧
    Layered (fun v => ParseInt v 0) Atoi (lastValue (go "status") (givenFlags args))
      (env "HC_EXPECTED_STATUS_CODE") StatusOK cfg.ExpectedStatusCode ∧
    Layered (ParseDuration fr) (ParseDuration fr) (lastValue (go "timeout") (givenFlags args))
      (env "HC_TIMEOUT") (2 * Second) cfg.Timeout := by
  obtain ⟨hnone, f1, hloop, hcfg⟩ := loadConfig_ret fr env args cfg h
  obtain ⟨pa, pd⟩ := loadEnvConfig_ok_parses fr env initConfig hnone
  have hfst := loadEnvConfig_fst fr env initConfig hnone
  obtain ⟨l1, l2, l3⟩ := parseLoop_ret fr _ _ _ hloop (by simp)
  simp only [hfst, hcfg] at l1 l2 l3
  refine ⟨layered_of_layers _ _ _ _ _ _ ?_ (fun w _ => ⟨w, rfl⟩),
    layered_of_layers _ _ _ _ _ _ l2 pa, layered_of_layers _ _ _ _ _ _ l3 pd⟩
  cases hu : env "HC_URL" <;> simpa [hu, envField, verbatim, initConfig] using l1

/-- C3. When `loadConfig` returns a `Config` and no error, each field is the value of its
flag (`-url` verbatim, `-status` read by `strconv.ParseInt` with base 0, `-timeout` read by
`time.ParseDuration`) if the flag was given on the command line, otherwise the value of
its environment variable if set, otherwise the default.  With no arguments `loadConfig`
returns whenever the environment parses, and with `HC_URL=http://test.com`,
`HC_EXPECTED_STATUS_CODE=201`, `HC_TIMEOUT=3s` it returns {http://test.com, 201, 3s} and
no error. -/
theorem loadConfig_precedence (fr : Nat → Nat → Nat → Nat) :
    (∀ (env : Env) (args : List GoString) (cfg : Config),
      loadConfig fr env args = .ret (cfg, none) →
      Layered verbatim verbatim (lastValue (go "url") (givenFlags args)) (env "HC_URL")
        (go "http://localhost") cfg.URL ∧
      Layered (fun v => ParseInt v 0) Atoi (lastValue (go "status") (givenFlags args))
        (env "HC_EXPECTED_STATUS_CODE") 200 cfg.ExpectedStatusCode ∧
      Layered (ParseDuration fr) (ParseDuration fr)
        (lastValue (go "timeout") (givenFlags args)) (env "HC_TIMEOUT") (2 * Second)
        cfg.Timeout) ∧
    (∀ (env : Env), (loadEnvConfig fr env initConfig).2 = none →
      loadConfig fr env [] = .ret ((loadEnvConfig fr env initConfig).1, none)) ∧
    loadConfig fr testEnvLoadConfig [] =
      .ret (⟨go "http://test.com", 201, 3 * Second⟩, none) := by
  refine ⟨fun env args cfg h => loadConfig_layers fr env args cfg h, ?_, rfl⟩
  intro env h
  unfold loadConfig parseFlags
  rcases hl : loadEnvConfig fr env initConfig with ⟨cfg0, _ | err⟩
  · simp [parseLoop, parseOne]
  · simp [hl] at h

/-- A witness of C3: `HC_URL` and `HC_EXPECTED_STATUS_CODE` set, `-status` given twice and
`-timeout` given once. -/
theorem loadConfig_precedence_witness :
    loadConfig (fun _ _ _ => 0)
        (setenv (setenv emptyEnv "HC_URL" (go "http://test.com"))
          "HC_EXPECTED_STATUS_CODE" (go "201"))
        [go "-status=202", go "--timeout", go "5s", go "-status", go "0xCC"] =
      .ret (⟨go "http://test.com", 204, 5 * Second⟩, none) ∧
    Layered verbatim verbatim none (some (go "http://test.com")) (go "http://localhost")
      (go "http://test.com") ∧
    Layered (fun v => ParseInt v 0) Atoi (some (go "0xCC")) (some (go "201")) 200 204 ∧
    Layered (ParseDuration (fun _ _ _ => 0)) (ParseDuration (fun _ _ _ => 0))
      (some (go "5s")) none (2 * Second) (5 * Second) :=
  ⟨rfl, (loadConfig_precedence (fun _ _ _ => 0)).1
    (setenv (setenv emptyEnv "HC_URL" (go "http://test.com"))
      "HC_EXPECTED_STATUS_CODE" (go "201"))
    [go "-status=202", go "--timeout", go "5s", go "-status", go "0xCC"]
    ⟨go "http://test.com", 204, 5 * Second⟩ rfl⟩

/-! ## The sign of the timeout -/

/-- A duration that `time.ParseDuration` reads from a text without a leading minus sign
is nonnegative. -/
theorem ParseDuration_nonneg (fr : Nat → Nat → Nat → Nat) (v : GoString) (d : Int)
    (h : ParseDuration fr v = .ok d) (hv : v.head? ≠ some 0x2d) : 0 ≤ d := by
  have key : ∀ (orig s : GoString),
      (if s = go "0" then (Except.ok 0 : Except DurationError Int)
        else if s = [] then .error (.invalid orig)
        else
          match parseDurationLoop fr orig s.length s 0 with
          | .error e => .error e
          | .ok n =>
            if false = true then .ok (if n = 2 ^ 63 then -(2 ^ 63 : Int) else -(n : Int))
            else if n > 2 ^ 63 - 1 then .error (.invalid orig)
            else .ok (n : Int)) = .ok d → 0 ≤ d := by
    intro orig s hk
    by_cases h1 : s = go "0"
    · simp only [h1, if_true, Except.ok.injEq] at hk
      omega
    · by_cases h2 : s = []
      · subst h2
        simp only [h1, if_false, if_true] at hk
        exact absurd hk (by simp)
      · simp only [h1, h2, if_false] at hk
        cases hl : parseDurationLoop fr orig s.length s 0 with
        | error e => simp [hl] at hk
        | ok n =>
          simp only [hl, Bool.false_eq_true, if_false] at hk
          by_cases h3 : n > 2 ^ 63 - 1
          · rw [if_pos h3] at hk
            exact absurd hk (by simp)
          · rw [if_neg h3] at hk
            simp only [Except.ok.injEq] at hk
            omega
  unfold ParseDuration at h
  rcases v with _ | ⟨c, r⟩
  · exact key _ _ h
  · have hc : c ≠ 0x2d := by simpa using hv
    by_cases hp : c = 0x2b
    · subst hp
      simp only [show ((0x2b : UInt8) = 0x2d) = False from by decide] at h
      simp only [decide_True, decide_False, Bool.or_true, Bool.or_false, if_true] at h
      exact key _ _ h
    · simp only [hc, hp, decide_False, Bool.or_false] at h
      exact key _ _ h

/-- C9, as the code runs: `time.ParseDuration` accepts a leading minus sign, so
`HC_TIMEOUT=-3s`, or the flag `-timeout -3s`, resolves to a `Config` whose `Timeout` is
negative. -/
theorem loadConfig_negative_timeout :
    (∀ fr : Nat → Nat → Nat → Nat,
      loadConfig fr (setenv emptyEnv "HC_TIMEOUT" (go "-3s")) [] =
        .ret (⟨go "http://localhost", 200, -3 * Second⟩, none) ∧
      loadConfig fr emptyEnv [go "-timeout", go "-3s"] =
        .ret (⟨go "http://localhost", 200, -3 * Second⟩, none)) ∧
    ¬ (0 ≤ -3 * Second) := by
  refine ⟨fun fr => ⟨by rfl, by rfl⟩, by decide⟩

/-- C9, amended. For every environment and command line for which `loadConfig` returns a
`Config` and no error, `Timeout` is nonnegative provided that the value of `-timeout`, if
the flag was given, does not start with a minus sign, and that otherwise the value of
`HC_TIMEOUT`, if set, does not start with a minus sign. -/
theorem loadConfig_timeout_nonneg (fr : Nat → Nat → Nat → Nat) (env : Env)
    (args : List GoString) (cfg : Config) (h : loadConfig fr env args = .ret (cfg, none))
    (hflag : ∀ v, lastValue (go "timeout") (givenFlags args) = some v → v.head? ≠ some 0x2d)
    (henv : lastValue (go "timeout") (givenFlags args) = none →
      ∀ w, env "HC_TIMEOUT" = some w → w.head? ≠ some 0x2d) :
    0 ≤ cfg.Timeout := by
  obtain ⟨_, _, l3⟩ := loadConfig_layers fr env args cfg h
  cases hf : lastValue (go "timeout") (givenFlags args) with
  | some v =>
    simp only [Layered, hf] at l3
    exact ParseDuration_nonneg fr v _ l3 (hflag v hf)
  | none =>
    cases he : env "HC_TIMEOUT" with
    | some w =>
      simp only [Layered, hf, he] at l3
      exact ParseDuration_nonneg fr w _ l3 (henv hf w he)
    | none =>
      simp only [Layered, hf, he] at l3
      rw [l3]
      decide

/-- A witness of C9, amended: `HC_TIMEOUT=3s` overridden by `-timeout +1m30s`. -/
theorem loadConfig_timeout_nonneg_witness :
    loadConfig (fun _ _ _ => 0) (setenv emptyEnv "HC_TIMEOUT" (go "3s"))
        [go "-timeout", go "+1m30s"] =
      .ret (⟨go "http://localhost", 200, 90 * Second⟩, none) ∧
    (0 : Int) ≤ 90 * Second :=
  ⟨rfl, loadConfig_timeout_nonneg (fun _ _ _ => 0) (setenv emptyEnv "HC_TIMEOUT" (go "3s"))
    [go "-timeout", go "+1m30s"] ⟨go "http://localhost", 200, 90 * Second⟩ rfl
    (fun v hv => by
      have : v = go "+1m30s" := (Option.some.inj hv).symm
      rw [this]; decide)
    (fun hn => by revert hn; decide)⟩

/-! ## `main` -/

/-- The arguments `parseOne` leaves are among those it was given. -/
theorem parseOne_seen_args (fr : Nat → Nat → Nat → Nat) (f f1 : FlagSet)
    (h : parseOne fr f = .seen f1) : ∀ s ∈ f1.args, s ∈ f.args := by
  obtain ⟨vars, actual, args⟩ := f
  rcases args with _ | ⟨s, rest⟩
  · simp [parseOne] at h
  · rcases s with _ | ⟨c0, _ | ⟨c1, s2⟩⟩
    · simp [parseOne] at h
    · simp [parseOne] at h
    · simp only [parseOne] at h
      by_cases h0 : c0 = 0x2d
      swap
      · simp [h0] at h
      by_cases h1 : (c1 = 0x2d && s2 = []) = true
      · simp [h0, h1] at h
      simp only [h0, h1] at h
      generalize hn : (if c1 = 45 then s2 else c1 :: s2) = name0 at h
      rcases name0 with _ | ⟨n0, tail⟩
      · simp at h
      by_cases hbad : (decide (n0 = 45) || decide (n0 = 61)) = true
      · simp [hbad] at h
      simp only [hbad] at h
      generalize hsp : splitEquals [] (n0 :: tail) = sp at h
      obtain ⟨name, inl⟩ := sp
      simp only [ne_eq, not_true_eq_false, if_false, Bool.false_eq_true] at h
      split at h
      · split at h <;> simp at h
      rcases inl with _ | v
      · rcases rest with _ | ⟨v, rest1⟩
        · simp at h
        · simp only at h
          cases hset : setFlag fr vars name v with
          | none => simp [hset] at h
          | some r =>
            cases r with
            | none => simp [hset] at h
            | some vars1 =>
              simp only [hset, ParseOne.seen.injEq] at h
              subst h
              intro s hs
              simp only [List.mem_cons]
              exact Or.inr (Or.inr hs)
      · simp only at h
        cases hset : setFlag fr vars name v with
        | none => simp [hset] at h
        | some r =>
          cases r with
          | none => simp [hset] at h
          | some vars1 =>
            simp only [hset, ParseOne.seen.injEq] at h
            subst h
            intro s hs
            simp only [List.mem_cons]
            exact Or.inr hs

/-- When `parseOne` returns `ErrHelp`, the first argument is the flag `-h` or `-help`. -/
theorem parseOne_help (fr : Nat → Nat → Nat → Nat) (f : FlagSet)
    (h : parseOne fr f = .fail .help) : ∃ s ∈ f.args, isHelpFlag s = true := by
  obtain ⟨vars, actual, args⟩ := f
  rcases args with _ | ⟨s, rest⟩
  · simp [parseOne] at h
  · rcases s with _ | ⟨c0, _ | ⟨c1, s2⟩⟩
    · simp [parseOne] at h
    · simp [parseOne] at h
    · simp only [parseOne] at h
      by_cases h0 : c0 = 0x2d
      swap
      · simp [h0] at h
      by_cases h1 : (c1 = 0x2d && s2 = []) = true
      · simp [h0, h1] at h
      simp only [h0, h1] at h
      generalize hn : (if c1 = 45 then s2 else c1 :: s2) = name0 at h
      rcases name0 with _ | ⟨n0, tail⟩
      · simp at h
      by_cases hbad : (decide (n0 = 45) || decide (n0 = 61)) = true
      · simp [hbad] at h
      have hft : flagText (c0 :: c1 :: s2) = some (n0 :: tail) := by
        simp only [flagText, h0, h1, hn]
        simp [hbad]
      simp only [hbad] at h
      refine ⟨c0 :: c1 :: s2, by simp, ?_⟩
      simp only [isHelpFlag, hft]
      simp only [ne_eq, not_true_eq_false, if_false, Bool.false_eq_true] at h
      split at h
      · split at h
        · assumption
        · simp at h
      · repeat' split at h
        all_goals simp at h

/-- When `flag.Parse` ends the process, the status is 2, or it is 0 and one of the
arguments is the flag `-h` or `-help`. -/
theorem parseLoop_exit (fr : Nat → Nat → Nat → Nat) :
    ∀ (fuel : Nat) (f : FlagSet) (code : Nat), parseLoop fr fuel f = .exit code →
      (code = 0 ∧ ∃ s ∈ f.args, isHelpFlag s = true) ∨ code = 2 := by
  intro fuel
  induction fuel with
  | zero => intro f code h; simp [parseLoop] at h
  | succ n ih =>
    intro f code h
    unfold parseLoop at h
    cases hp : parseOne fr f with
    | seen f2 =>
      simp only [hp] at h
      rcases ih f2 code h with ⟨h0, s, hs, hh⟩ | h2
      · exact Or.inl ⟨h0, s, parseOne_seen_args fr f f2 hp s hs, hh⟩
      · exact Or.inr h2
    | done f2 => simp [hp] at h
    | fail e =>
      cases e with
      | help =>
        simp only [hp, Run.exit.injEq] at h
        exact Or.inl ⟨h.symm, parseOne_help fr f hp⟩
      | badSyntax a => simp only [hp, Run.exit.injEq] at h; exact Or.inr h.symm
      | notDefined a => simp only [hp, Run.exit.injEq] at h; exact Or.inr h.symm
      | needsArgument a => simp only [hp, Run.exit.injEq] at h; exact Or.inr h.symm
      | invalidValue a b => simp only [hp, Run.exit.injEq] at h; exact Or.inr h.symm

/-- When the process ends inside `loadConfig`, the status is 2, or it is 0 and one of the
arguments is the flag `-h` or `-help`. -/
theorem loadConfig_exit (fr : Nat → Nat → Nat → Nat) (env : Env) (args : List GoString)
    (code : Nat) (h : loadConfig fr env args = .exit code) :
    (code = 0 ∧ ∃ s ∈ args, isHelpFlag s = true) ∨ code = 2 := by
  unfold loadConfig parseFlags at h
  rcases hl : loadEnvConfig fr env initConfig with ⟨cfg0, _ | err⟩
  · simp only [hl] at h
    cases hp : parseLoop fr (args.length + 1) { vars := cfg0, actual := [], args := args } with
    | ret f1 => simp [hp] at h
    | exit c =>
      simp only [hp, Run.exit.injEq] at h
      subst h
      exact parseLoop_exit fr _ _ _ hp
  · simp [hl] at h

/-- An error of `loadEnvConfig` is returned by `loadConfig` with the zero `Config`, whatever
the arguments. -/
theorem loadConfig_error (fr : Nat → Nat → Nat → Nat) (env : Env) (args : List GoString)
    (err : Error) (h : (loadEnvConfig fr env initConfig).2 = some err) :
    loadConfig fr env args = .ret (⟨[], 0, 0⟩, some err) := by
  unfold loadConfig
  rcases hl : loadEnvConfig fr env initConfig with ⟨cfg0, _ | e⟩
  · simp [hl] at h
  · simp only [hl, Option.some.injEq] at h
    subst h
    rfl

/-- C7, as the code runs: with the argument `-h`, `flag.Parse` ends the process with
status 0 inside `loadConfig`, which therefore does not return, and no check is made. -/
theorem main_help_exits_zero :
    main (fun _ _ _ => 0) emptyEnv [go "-h"] (fun _ => failingClient (go "refused")) =
      ([], 0) ∧
    loadConfig (fun _ _ _ => 0) emptyEnv [go "-h"] = .exit 0 := by
  refine ⟨by rfl, by rfl⟩

/-- C7, amended. The exit status of `main` is 0 exactly when `loadConfig` returns a
`Config` and no error and `performHealthCheck` then returns no error, or when `flag.Parse`
ends the process with status 0, which it does only when one of the arguments is the flag
`-h` or `-help`.  When `loadEnvConfig` returns an error, `main` exits with status 1 after
one error record, without constructing a client or calling `Get`; when `performHealthCheck`
returns an error, `main` exits with status 1; and when `flag.Parse` ends the process,
nothing else happens and the status is 0 or 2. -/
theorem main_exit_status (fr : Nat → Nat → Nat → Nat) (env : Env) (args : List GoString)
    (net : Int → HTTPClient) :
    ((main fr env args net).2 = 0 ↔
      (∃ cfg, loadConfig fr env args = .ret (cfg, none) ∧
        (performHealthCheck cfg (net cfg.Timeout)).2 = none) ∨
      loadConfig fr env args = .exit 0) ∧
    (loadConfig fr env args = .exit 0 → ∃ s ∈ args, isHelpFlag s = true) ∧
    (∀ err, (loadEnvConfig fr env initConfig).2 = some err →
      main fr env args net =
        ([.log .error "Error loading config" [("error", .errorText err)]], 1)) ∧
    (∀ cfg err, loadConfig fr env args = .ret (cfg, none) →
      (performHealthCheck cfg (net cfg.Timeout)).2 = some err →
      (main fr env args net).2 = 1) ∧
    (∀ code, loadConfig fr env args = .exit code →
      main fr env args net = ([], code) ∧ (code = 0 ∨ code = 2)) := by
  refine ⟨?_, ?_, ?_, ?_, ?_⟩
  · unfold main
    rcases hl : loadConfig fr env args with ⟨cfg, _ | err⟩ | code
    · rcases hc : performHealthCheck cfg (net cfg.Timeout) with ⟨events, _ | e⟩
      · simp [hc]
      · simp [hc]
    · simp
    · simp
  · intro h
    rcases loadConfig_exit fr env args 0 h with ⟨_, hs⟩ | h2
    · exact hs
    · omega
  · intro err h
    unfold main
    rw [loadConfig_error fr env args err h]
  · intro cfg err hl hc
    unfold main
    simp only [hl]
    rcases hp : performHealthCheck cfg (net cfg.Timeout) with ⟨events, _ | e⟩
    · simp [hp] at hc
    · rfl
  · intro code hl
    refine ⟨by unfold main; rw [hl], ?_⟩
    rcases loadConfig_exit fr env args code hl with ⟨h0, _⟩ | h2
    · exact Or.inl h0
    · exact Or.inr h2

/-- A witness of C7, amended: `HC_TIMEOUT=invalid` with a server answering 200, and
`-status 201` against the same server. -/
theorem main_exit_status_witness :
    main (fun _ _ _ => 0) (setenv emptyEnv "HC_TIMEOUT" (go "invalid")) []
        (fun _ => serverAnswering 200) =
      ([.log .error "Error loading config" [("error", .errorText
        ⟨go "invalid value for HC_TIMEOUT (invalid), using default: ",
          some (.duration (.invalid (go "invalid")))⟩)]], 1) ∧
    (main (fun _ _ _ => 0) emptyEnv [go "-status", go "201"]
      (fun _ => serverAnswering 200)).2 = 1 :=
  ⟨(main_exit_status (fun _ _ _ => 0) (setenv emptyEnv "HC_TIMEOUT" (go "invalid")) []
      (fun _ => serverAnswering 200)).2.2.1 _ rfl,
    (main_exit_status (fun _ _ _ => 0) emptyEnv [go "-status", go "201"]
      (fun _ => serverAnswering 200)).2.2.2.1 ⟨go "http://localhost", 201, 2 * Second⟩
      ⟨go "unexpected status code received: expected 201, got 200", none⟩ rfl (by rfl)⟩

/-! ## The loops never run out of fuel -/

/-- The text `time.leadingInt` leaves is no longer than the text it was given. -/
theorem leadingInt_length : ∀ (s : GoString) (x v : Nat) (rest : GoString),
    leadingInt s x = some (v, rest) → rest.length ≤ s.length := by
  intro s
  induction s with
  | nil => intro x v rest h; simp [leadingInt] at h; simp [h.2.symm]
  | cons c s ih =>
    intro x v rest h
    unfold leadingInt at h
    split_ifs at h with h1 h2 h3
    · simp only [Option.some.injEq, Prod.mk.injEq] at h
      simp [h.2.symm]
    · have := ih _ _ _ h
      simp only [List.length_cons]
      omega

/-- The text `time.leadingFraction` leaves is no longer than the text it was given. -/
theorem leadingFraction_length : ∀ (s : GoString) (x k : Nat) (o : Bool),
    (leadingFraction s x k o).2.2.length ≤ s.length := by
  intro s
  induction s with
  | nil => intro x k o; simp [leadingFraction]
  | cons c s ih =>
    intro x k o
    unfold leadingFraction
    split_ifs
    · simp
    all_goals
      simp only [List.length_cons]
      exact Nat.le_succ_of_le (ih _ _ _)

/-- The unit is no longer than the text. -/
theorem unitLen_le (s : GoString) : unitLen s ≤ s.length := by
  induction s with
  | nil => simp [unitLen]
  | cons c s ih =>
    unfold unitLen
    split_ifs
    · simp
    · simp only [List.length_cons]
      omega

/-- The text left after the optional fraction is no longer than the text before it. -/
theorem fractionPart_length (s1 : GoString) :
    (fractionPart s1).2.2.2.length ≤ s1.length := by
  unfold fractionPart
  split
  · simp only [List.length_cons]
    exact Nat.le_succ_of_le (leadingFraction_length _ 0 0 false)
  · exact Nat.le_refl _

/-- An iteration of the loop of `time.ParseDuration` leaves a shorter text. -/
theorem durationStep_length (fr : Nat → Nat → Nat → Nat) (orig : GoString) (c : UInt8)
    (s0 : GoString) (d : Nat) (rest : GoString) (d1 : Nat)
    (h : durationStep fr orig c s0 d = .ok (rest, d1)) : rest.length ≤ s0.length := by
  unfold durationStep at h
  split_ifs at h with hc
  cases hl : leadingInt (c :: s0) 0 with
  | none => simp [hl] at h
  | some p =>
    obtain ⟨v, s1⟩ := p
    have h1 := leadingInt_length _ _ _ _ hl
    have h2 := fractionPart_length s1
    simp only [hl] at h
    generalize fractionPart s1 = q at h h2
    obtain ⟨f, k, post, s2⟩ := q
    simp only at h h2
    have hu := unitLen_le s2
    split_ifs at h with a1 a2
    repeat' split at h
    all_goals first
      | (simp only [Except.ok.injEq, Prod.mk.injEq] at h
         rw [← h.1, List.length_drop]
         simp only [List.length_cons] at h1
         omega)
      | (exact absurd h (by simp))

/-- The loop of `time.ParseDuration` gives the same result for any fuel that is at least
the length of the text: the fuel `ParseDuration` passes is never exhausted. -/
theorem parseDurationLoop_fuel (fr : Nat → Nat → Nat → Nat) (orig : GoString) :
    ∀ (n m : Nat) (s : GoString) (d : Nat), s.length ≤ n → s.length ≤ m →
      parseDurationLoop fr orig n s d = parseDurationLoop fr orig m s d := by
  intro n
  induction n with
  | zero =>
    intro m s d hn _
    have : s = [] := List.length_eq_zero.mp (Nat.le_zero.mp hn)
    subst this
    cases m <;> simp [parseDurationLoop]
  | succ n ih =>
    intro m s d hn hm
    rcases s with _ | ⟨c, s0⟩
    · cases m <;> simp [parseDurationLoop]
    · rcases m with _ | m
      · simp at hm
      · simp only [parseDurationLoop]
        cases hs : durationStep fr orig c s0 d with
        | error e => rfl
        | ok p =>
          obtain ⟨rest, d1⟩ := p
          have hlen := durationStep_length fr orig c s0 d rest d1 hs
          simp only [List.length_cons] at hn hm
          exact ih m rest d1 (by omega) (by omega)

/-- The loop of `flag.Parse` gives the same result for any fuel above the number of
arguments: the fuel `parseFlags` passes is never exhausted. -/
theorem parseLoop_fuel (fr : Nat → Nat → Nat → Nat) :
    ∀ (n m : Nat) (f : FlagSet), f.args.length < n → f.args.length < m →
      parseLoop fr n f = parseLoop fr m f := by
  intro n
  induction n with
  | zero => intro m f hn _; omega
  | succ n ih =>
    intro m f hn hm
    rcases m with _ | m
    · omega
    · simp only [parseLoop]
      cases hp : parseOne fr f with
      | seen f1 =>
        obtain ⟨_, _, _, _, hlen⟩ := parseOne_seen fr f f1 hp
        exact ih m f1 (by omega) (by omega)
      | done f1 => rfl
      | fail e => cases e <;> rfl

/-! ## The library functions on known inputs -/

/-- `strconv.Atoi` and `strconv.ParseInt` with base 0 on a few texts, among them the
bounds of `int`. -/
theorem strconv_examples :
    Atoi (go "201") = .ok 201 ∧ Atoi (go "-42") = .ok (-42) ∧ Atoi (go "+7") = .ok 7 ∧
    Atoi (go "") = .error ⟨"Atoi", [], .ErrSyntax⟩ ∧
    Atoi (go "12a") = .error ⟨"Atoi", go "12a", .ErrSyntax⟩ ∧
    Atoi (go "9223372036854775807") = .ok 9223372036854775807 ∧
    Atoi (go "9223372036854775808") = .error ⟨"Atoi", go "9223372036854775808", .ErrRange⟩ ∧
    Atoi (go "-9223372036854775808") = .ok (-9223372036854775808) ∧
    ParseInt (go "0x1F") 0 = .ok 31 ∧ ParseInt (go "0b101") 0 = .ok 5 ∧
    ParseInt (go "017") 0 = .ok 15 ∧ ParseInt (go "1_000") 0 = .ok 1000 ∧
    ParseInt (go "1__000") 0 = .error ⟨"ParseInt", go "1__000", .ErrSyntax⟩ := by
  refine ⟨by rfl, by rfl, by rfl, by rfl, by rfl, by rfl, by rfl, by rfl, by rfl, by rfl,
    by rfl, by rfl, by rfl⟩

/-- `time.ParseDuration` on a few texts without a fraction. -/
theorem ParseDuration_examples (fr : Nat → Nat → Nat → Nat) :
    ParseDuration fr (go "3s") = .ok (3 * Second) ∧
    ParseDuration fr (go "1h10m10s") = .ok (4210 * Second) ∧
    ParseDuration fr (go "300ms") = .ok 300000000 ∧
    ParseDuration fr (go "-2µs") = .ok (-2000) ∧
    ParseDuration fr (go "0") = .ok 0 ∧
    ParseDuration fr (go "3") = .error (.missingUnit (go "3")) ∧
    ParseDuration fr (go "3x") = .error (.unknownUnit (go "x") (go "3x")) ∧
    ParseDuration fr (go "") = .error (.invalid []) ∧
    ParseDuration fr (go "9223372036854775807ns") = .ok 9223372036854775807 ∧
    ParseDuration fr (go "9223372036854775808ns") =
      .error (.invalid (go "9223372036854775808ns")) := by
  refine ⟨by rfl, by rfl, by rfl, by rfl, by rfl, by rfl, by rfl, by rfl, by rfl, by rfl⟩

/-- `url.Parse` followed by `String` on a few texts, and three texts `url.Parse`
rejects. -/
theorem url_examples :
    (urlParse (go "http://localhost")).map URL.String = .ok (go "http://localhost") ∧
    urlParse (go "http://127.0.0.1:8080") =
      .ok { Scheme := go "http", Host := go "127.0.0.1:8080" } ∧
    (urlParse (go "HTTP://user:pw@example.com:80/a%20b?q=1#top")).map URL.String =
      .ok (go "http://user:pw@example.com:80/a%20b?q=1#top") ∧
    urlParse (go "/just/a/path") = .ok { Path := go "/just/a/path" } ∧
    urlParse (go "http://a b/") = .error (go "http://a b/", .invalidHost (go " ")) ∧
    urlParse (go "http://host:port/") = .error (go "http://host:port/", .invalidPort (go ":port")) ∧
    urlParse (go "/a%zz") = .error (go "/a%zz", .escape (go "%zz")) := by
  refine ⟨by rfl, by rfl, by rfl, by rfl, by rfl, by rfl, by rfl⟩

/-- The verb `%d` on a few integers. -/
theorem fmtInt_examples :
    fmtInt 200 = go "200" ∧ fmtInt 0 = go "0" ∧ fmtInt (-17) = go "-17" := by
  refine ⟨by rfl, by rfl, by rfl⟩

end HealthChecker
